import Mathlib

/-!
# Verification of the Sokoban ASP-solver client core

Shallow embedding of the puzzle state engine and solver-orchestration layer
of the `sokoban-asp-solver` repository, together with theorems settling the
frozen claims about it.

The embedding covers:
* the puzzle move/undo engine (`move`, `saveState`, `undoMove` from
  `SokobanGame.tsx`),
* the level parser with its exterior flood fill (`parseLevel` from
  `app/data/levels.ts`),
* the random level generator (`generateRandomLevel` from `app/data/levels.ts`),
  with `Math.random` draws modelled by an explicit stream of naturals,
* the latency estimator (`estimateMsForSteps`), with JS `number` idealised
  as the reals,
* the solvability-check orchestration (`checkSolvability`) as a pure state
  machine over the React state it touches.
-/

namespace Sokoban

/-- 2-D grid coordinate, `Point` in `levels.ts` / `SokobanGame.tsx`.
Coordinates are `Int` because the move logic forms `player.x + d.x`, which
may leave the grid before the bounds check rejects it. -/
structure Point where
  x : Int
  y : Int
deriving DecidableEq, Repr

/-- The four move directions (`MoveDirection` in `SokobanGame.tsx`). -/
inductive MoveDirection
  | up
  | down
  | left
  | right
deriving DecidableEq, Repr

/-- The `delta` table inside `move`. -/
def delta : MoveDirection → Point
  | .up => ⟨0, -1⟩
  | .down => ⟨0, 1⟩
  | .left => ⟨-1, 0⟩
  | .right => ⟨1, 0⟩

/-- One entry of `moveHistory`: the snapshot `{player, boxes, moveCount}`
pushed by `saveState`. -/
structure Snapshot where
  player : Point
  boxes : List Point
  moveCount : Nat
deriving DecidableEq, Repr

/-- The game-state portion of the component state that the move/undo engine
reads and writes: `grid`, `player`, `boxes`, `goals`, `moveCount`,
`moveHistory`.  Cells are the characters produced by `parseLevel`:
`'#'` wall, `'x'` void, `'.'` goal, `' '` floor. -/
structure GameState where
  grid : List (List Char)
  player : Point
  boxes : List Point
  goals : List Point
  moveCount : Nat
  moveHistory : List Snapshot
deriving DecidableEq, Repr

attribute [ext] Point Snapshot GameState

/-- The `isWall` helper inside `move`: out-of-bounds (on either axis, for the
possibly ragged row actually indexed), `'#'` and `'x'` all count as walls. -/
def isWall (grid : List (List Char)) (x y : Int) : Bool :=
  if y < 0 ∨ (grid.length : Int) ≤ y then true
  else
    let row := grid.getD y.toNat []
    if x < 0 ∨ (row.length : Int) ≤ x then true
    else decide (row.getD x.toNat ' ' = '#' ∨ row.getD x.toNat ' ' = 'x')

/-- `boxes.findIndex(b => b.x === x && b.y === y)`, with JS's `-1` sentinel
rendered as `none`. -/
def findBoxIdx : List Point → Int → Int → Option Nat
  | [], _, _ => none
  | b :: rest, x, y =>
    if b.x = x ∧ b.y = y then some 0
    else (findBoxIdx rest x y).map (· + 1)

/-- `boxes.some(b => b.x === x && b.y === y)`. -/
def boxAt (boxes : List Point) (x y : Int) : Bool :=
  boxes.any fun b => decide (b.x = x ∧ b.y = y)

/-- The win predicate evaluated inside the pushing branch of `move`:
`newBoxes.every(box => goals.some(g => g.x === box.x && g.y === box.y))`. -/
def winPred (boxes goals : List Point) : Bool :=
  boxes.all fun b => goals.any fun g => decide (g.x = b.x ∧ g.y = b.y)

/-- `saveState`: push the snapshot of the current state onto `moveHistory`. -/
def saveState (s : GameState) : GameState :=
  { s with
    moveHistory :=
      s.moveHistory ++ [{ player := s.player, boxes := s.boxes, moveCount := s.moveCount }] }

/-- Result of a `move` call: the returned boolean, the game state afterwards,
and whether the victory signal (`setTimeout(() => setShowVictoryModal(true))`)
was scheduled by this move. -/
structure MoveResult where
  ok : Bool
  state : GameState
  win : Bool
deriving DecidableEq, Repr

/-- The `move` function of `SokobanGame.tsx` (game-state part).

The UI guard (`showVictoryModal || isLoading`), the debounced solvability
re-check it schedules and the solution-progress bookkeeping are
orchestration/UI state and are modelled separately; `move` here is the pure
transition on `grid/player/boxes/goals/moveCount/moveHistory` plus the
returned boolean and the victory signal. -/
def move (s : GameState) (dir : MoveDirection) : MoveResult :=
  let d := delta dir
  let newX := s.player.x + d.x
  let newY := s.player.y + d.y
  if isWall s.grid newX newY then ⟨false, s, false⟩
  else
    match findBoxIdx s.boxes newX newY with
    | some boxIndex =>
      -- Pushing a box
      let boxNewX := newX + d.x
      let boxNewY := newY + d.y
      if boxNewY < 0 ∨ (s.grid.length : Int) ≤ boxNewY
          ∨ isWall s.grid boxNewX boxNewY = true
          ∨ boxAt s.boxes boxNewX boxNewY = true then
        ⟨false, s, false⟩
      else
        let s1 := saveState s
        let newBoxes := s1.boxes.set boxIndex ⟨boxNewX, boxNewY⟩
        let s2 := { s1 with
          boxes := newBoxes
          player := ⟨newX, newY⟩
          moveCount := s1.moveCount + 1 }
        ⟨true, s2, winPred newBoxes s2.goals⟩
    | none =>
      -- Just moving: note that this branch performs no win check.
      let s1 := saveState s
      ⟨true, { s1 with player := ⟨newX, newY⟩, moveCount := s1.moveCount + 1 }, false⟩

/-- `undoMove` (game-state part): no-op on empty history, otherwise restore
the last snapshot and pop it.  The auto-solve/debounce cancellations and the
solvability re-check it performs touch only orchestration state. -/
def undoMove (s : GameState) : GameState :=
  match s.moveHistory.getLast? with
  | none => s
  | some last =>
    { s with
      player := last.player
      boxes := last.boxes
      moveCount := last.moveCount
      moveHistory := s.moveHistory.dropLast }

/-- Apply a sequence of moves, keeping only the resulting state. -/
def applyMoves (s : GameState) : List MoveDirection → GameState
  | [] => s
  | d :: ds => applyMoves (move s d).state ds

/-- All moves of the sequence succeed (each `move` returns `true`). -/
def movesOk (s : GameState) : List MoveDirection → Prop
  | [] => True
  | d :: ds => (move s d).ok = true ∧ movesOk (move s d).state ds

/-- Apply `undoMove` `n` times. -/
def undoN : Nat → GameState → GameState
  | 0, s => s
  | n + 1, s => undoMove (undoN n s)

/-- The blocking condition of claim C1: the player's target cell is a
wall/void/out-of-bounds, or it holds a box whose one-step-further destination
is wall/void/out-of-bounds or occupied by another box. -/
def moveBlocked (s : GameState) (dir : MoveDirection) : Prop :=
  let d := delta dir
  let nx := s.player.x + d.x
  let ny := s.player.y + d.y
  isWall s.grid nx ny = true ∨
    (boxAt s.boxes nx ny = true ∧
      (isWall s.grid (nx + d.x) (ny + d.y) = true ∨
        boxAt s.boxes (nx + d.x) (ny + d.y) = true))

instance (s : GameState) (dir : MoveDirection) : Decidable (moveBlocked s dir) := by
  unfold moveBlocked; infer_instance

instance (s : GameState) (ds : List MoveDirection) : Decidable (movesOk s ds) := by
  induction ds generalizing s with
  | nil => exact .isTrue trivial
  | cons d ds ih => unfold movesOk; exact @instDecidableAnd _ _ _ (ih _)

/-- The 3×3 room `##### / #@$.# / #####` of the spec's end-to-end example, as
`parseLevel` produces it: player `(1,1)`, box `(2,1)`, goal `(3,1)`. -/
def demoRoom : GameState where
  grid := [['#', '#', '#', '#', '#'],
           ['#', ' ', ' ', '.', '#'],
           ['#', '#', '#', '#', '#']]
  player := ⟨1, 1⟩
  boxes := [⟨2, 1⟩]
  goals := [⟨3, 1⟩]
  moveCount := 0
  moveHistory := []

/-- A state whose boxes are already all on goals (level loaded from an
all-`*` layout), with the player on an adjacent free cell. -/
def solvedRoom : GameState where
  grid := [['#', '#', '#', '#', '#'],
           ['#', '.', ' ', ' ', '#'],
           ['#', '#', '#', '#', '#']]
  player := ⟨2, 1⟩
  boxes := [⟨1, 1⟩]
  goals := [⟨1, 1⟩]
  moveCount := 0
  moveHistory := []

/-! ### Solvability orchestration (`checkSolvability`)

The solver round-trip is asynchronous in the source; here it is a pure state
machine.  `issueQuery` is the synchronous prefix of `checkSolvability`
(request id allocation, abort of the previous in-flight request, status and
cache resets).  `handleResponse` is the code that runs when a response
returns (the `aborted`/stale guards of `runOnce`, `recordTiming`,
`applyFinal`, and the `finally` block).  JS `number` latencies are modelled
as rationals. -/

/-- `MAX_SOLUTION_MOVES` in `SokobanGame.tsx`. -/
def MAX_SOLUTION_MOVES : Nat := 250

/-- Response of `SokobanAPI.checkSolvable`.  `solvable` is
`boolean | null`, and the field may also be missing entirely in a malformed
payload: `none` models a missing field, `some none` models `null`.  The
`solver` metadata is flattened into its two fields (`none` = absent). -/
structure SolvabilityResult where
  solvable : Option (Option Bool)
  error : Option String
  message : Option String
  hintMessage : Option String
  solution : Option (List String)
  solverMaxStepsUsed : Option Nat
  solverElapsedMs : Option ℚ
deriving DecidableEq, Repr

/-- The values of `solvabilityStatus` (its `null` initial value is the
`none` of an `Option SolvStatus`). -/
inductive SolvStatus
  | checking
  | solvable
  | unsolvable
  | unknown
  | error
deriving DecidableEq, Repr

/-- The React state and refs that `checkSolvability` reads or writes. -/
structure OrchState where
  /-- `solvabilityRequestIdRef.current` -/
  latestId : Nat
  /-- ids of requests whose `AbortController` has been fired -/
  abortedIds : List Nat
  /-- the request owning `abortControllerRef.current` -/
  inFlightId : Option Nat
  /-- `isCheckingSolvability` -/
  isChecking : Bool
  /-- `solvabilityStatus` -/
  status : Option SolvStatus
  /-- `cachedHintMessage` -/
  cachedHint : Option String
  /-- `cachedSolution` -/
  cachedSolution : Option (List String)
  /-- `cachedSolutionTooLong` -/
  cachedTooLong : Bool
  /-- `solution` (the displayed plan) -/
  solution : Option (List String)
  /-- `currentSolutionStep` -/
  currentStep : Nat
  /-- `showSolution` -/
  showSolution : Bool
  /-- `showAlertModal` (the 600 ms reveal timer is abstracted away) -/
  showAlert : Bool
  /-- `alertTitle` -/
  alertTitle : String
  /-- `alertMessage` -/
  alertMessage : String
  /-- `solverTimingsBySteps` -/
  timings : List (Nat × ℚ)
  /-- `lastSolverMs` -/
  lastMs : Option ℚ
  /-- `lastSolverSteps` -/
  lastSteps : Option Nat
deriving DecidableEq, Repr

/-- The synchronous prefix of `checkSolvability` (lines 225–240): allocate
`requestId = ++solvabilityRequestIdRef.current`, abort the previous
controller, install a fresh one, set `isCheckingSolvability`/`'checking'`,
and clear the cached hint/solution/too-long flag. -/
def issueQuery (st : OrchState) : OrchState × Nat :=
  let rid := st.latestId + 1
  ({ st with
      latestId := rid
      abortedIds :=
        match st.inFlightId with
        | some prev => prev :: st.abortedIds
        | none => st.abortedIds
      inFlightId := some rid
      isChecking := true
      status := some .checking
      cachedHint := none
      cachedSolution := none
      cachedTooLong := false }, rid)

/-- Key lookup in the `solverTimingsBySteps` record. -/
def lookupSteps : List (Nat × ℚ) → Nat → Option ℚ
  | [], _ => none
  | (k, v) :: rest, n => if k = n then some v else lookupSteps rest n

/-- Key update in the `solverTimingsBySteps` record
(`{ ...prev, [used]: next }`). -/
def setSteps : List (Nat × ℚ) → Nat → ℚ → List (Nat × ℚ)
  | [], k, v => [(k, v)]
  | (k', v') :: rest, k, v =>
    if k' = k then (k, v) :: rest else (k', v') :: setSteps rest k v

/-- JS `Math.round` (round half toward `+∞`). -/
def jsRoundQ (q : ℚ) : ℤ := ⌊q + 1 / 2⌋

/-- `recordTiming` inside `checkSolvability`: when the oracle reports the
horizon it used and the elapsed time, update `lastSolverMs`/`lastSolverSteps`
and fold the sample into the per-horizon exponential moving average
(`Math.round(old * 0.7 + ms * 0.3)`). -/
def recordTiming (st : OrchState) (r : SolvabilityResult) : OrchState :=
  match r.solverElapsedMs, r.solverMaxStepsUsed with
  | some ms, some used =>
    let next : ℚ :=
      match lookupSteps st.timings used with
      | none => ms
      | some old => (jsRoundQ (old * (7 / 10) + ms * (3 / 10)) : ℚ)
    { st with
        lastMs := some ms
        lastSteps := some used
        timings := setSteps st.timings used next }
  | _, _ => st

/-- JS `m || dflt` on an optional string (empty strings are falsy). -/
def orDefault (m : Option String) (dflt : String) : String :=
  match m with
  | some s => if s = "" then dflt else s
  | none => dflt

/-- `applyFinal` inside `checkSolvability`: apply a (fresh) oracle response
to the UI-visible state. -/
def applyFinal (st : OrchState) (hasUndo refreshSolution : Bool)
    (r : SolvabilityResult) : OrchState :=
  match r.solvable with
  | some (some true) =>
    let st1 := { st with status := some .solvable, showAlert := false }
    let st2 :=
      match r.hintMessage with
      | some h => if h = "" then st1 else { st1 with cachedHint := some h }
      | none => st1
    let st3 :=
      match r.solution with
      | some sol =>
        if sol.length > MAX_SOLUTION_MOVES then
          { st2 with cachedSolution := none, cachedTooLong := true }
        else
          { st2 with cachedSolution := some sol, cachedTooLong := false }
      | none => { st2 with cachedSolution := none, cachedTooLong := false }
    if refreshSolution then
      match r.solution with
      | some sol =>
        if sol.length > MAX_SOLUTION_MOVES then
          { st3 with solution := none, currentStep := 0, showSolution := false }
        else
          { st3 with solution := some sol, currentStep := 0, showSolution := true }
      | none => { st3 with solution := none, currentStep := 0 }
    else st3
  | some (some false) =>
    let st1 := { st with
      status := some .unsolvable
      cachedHint := none
      cachedSolution := none
      cachedTooLong := false }
    let st2 :=
      if refreshSolution then
        { st1 with solution := none, showSolution := false, currentStep := 0 }
      else st1
    if hasUndo then
      { st2 with
          alertTitle := "Deadlock!"
          alertMessage :=
            orDefault r.message "This move makes the puzzle unsolvable." ++ " Try using Undo."
          showAlert := true }
    else
      { st2 with
          alertTitle := "Unsolvable!"
          alertMessage :=
            orDefault r.message "This puzzle is unsolvable from the start." ++ " Try another level."
          showAlert := true }
  | some none =>
    let st1 := { st with
      status := some .unknown
      cachedHint := none
      cachedSolution := none
      cachedTooLong := false }
    if refreshSolution then
      { st1 with solution := none, showSolution := false, currentStep := 0 }
    else st1
  | none =>
    let st1 := if r.error ≠ some "Aborted" then { st with status := some .error } else st
    let st2 := { st1 with cachedHint := none, cachedSolution := none, cachedTooLong := false }
    if refreshSolution then
      { st2 with solution := none, showSolution := false, currentStep := 0 }
    else st2

/-- What runs when the response of request `rid` returns: the two guards of
`runOnce` / the `auto` path (`controller.signal.aborted`, then
`requestId !== solvabilityRequestIdRef.current`), then `recordTiming` and
`applyFinal`, and in every case the `finally` block, which clears
`isCheckingSolvability` only for the latest request. -/
def handleResponse (st : OrchState) (rid : Nat) (hasUndo refreshSolution : Bool)
    (r : SolvabilityResult) : OrchState :=
  let st1 :=
    if rid ∈ st.abortedIds then st
    else if rid ≠ st.latestId then st
    else applyFinal (recordTiming st r) hasUndo refreshSolution r
  if rid = st1.latestId then { st1 with isChecking := false } else st1

/-- A late-arriving response event: the request id it belongs to, the
`hasUndo`/`refreshSolution` options captured at issue time, and the payload. -/
structure RespEvent where
  rid : Nat
  hasUndo : Bool
  refreshSolution : Bool
  result : SolvabilityResult
deriving DecidableEq

/-- Process a sequence of response events in arrival order. -/
def handleEvents (st : OrchState) (evs : List RespEvent) : OrchState :=
  evs.foldl (fun s e => handleResponse s e.rid e.hasUndo e.refreshSolution e.result) st

/-- A concrete orchestrator state used by witnesses: junk cached data that a
query reset must wipe. -/
def orchDemo : OrchState where
  latestId := 7
  abortedIds := []
  inFlightId := some 7
  isChecking := false
  status := some .solvable
  cachedHint := some "try right"
  cachedSolution := some ["right"]
  cachedTooLong := false
  solution := some ["right"]
  currentStep := 0
  showSolution := true
  showAlert := false
  alertTitle := "Puzzle Unsolvable!"
  alertMessage := "The current state cannot lead to a solution."
  timings := []
  lastMs := none
  lastSteps := none

/-- A concrete `Solvable` response used by witnesses. -/
def resDemo : SolvabilityResult where
  solvable := some (some true)
  error := none
  message := none
  hintMessage := some "push the box right"
  solution := some ["right"]
  solverMaxStepsUsed := some 25
  solverElapsedMs := some 1000

/-! ### Latency estimation (`estimateMsForSteps`)

JS `number` is idealised as the real numbers (the function uses `Math.log`
and `Math.pow`); stored latency samples are exact rationals. -/

/-- JS `Math.round` on an idealised real (round half toward `+∞`). -/
noncomputable def jsRound (x : ℝ) : ℤ := ⌊x + 1 / 2⌋

/-- `DEFAULT_ESTIMATE_MS_BY_STEPS` in `SokobanGame.tsx`. -/
def DEFAULT_ESTIMATE_MS_BY_STEPS : List (Nat × ℚ) :=
  [(25, 800), (35, 3500), (45, 12000), (50, 20000), (60, 40000)]

/-- Sorted insertion by horizon, used to model
`Object.entries(solverTimingsBySteps).map(...).sort((a, b) => a.steps - b.steps)`
(keys of a JS record are unique, so ties cannot arise). -/
def insertEntry (e : Nat × ℚ) : List (Nat × ℚ) → List (Nat × ℚ)
  | [] => [e]
  | f :: rest => if e.1 ≤ f.1 then e :: f :: rest else f :: insertEntry e rest

/-- The sorted entry list of `estimateMsForSteps`. -/
def sortEntries (l : List (Nat × ℚ)) : List (Nat × ℚ) :=
  l.foldr insertEntry []

/-- The pair-selection loop of `estimateMsForSteps`: walk adjacent entries
looking for a bracketing pair, with early exits when the target lies below
the smallest or above the largest observed horizon; `none` when the loop
falls through without a break (the source then keeps its defaults). -/
def selectGo (t : Nat) (e0 e1 penult last : Nat × ℚ) :
    List (Nat × ℚ) → Option ((Nat × ℚ) × (Nat × ℚ))
  | a :: b :: rest =>
    if a.1 ≤ t ∧ t ≤ b.1 then some (a, b)
    else if t < e0.1 then some (e0, e1)
    else if last.1 < t then some (penult, last)
    else selectGo t e0 e1 penult last (b :: rest)
  | _ => none

/-- `lower`/`upper` selection of `estimateMsForSteps` for two or more
entries: loop defaults are `entries[0]` and the last entry. -/
def selectPair (e0 e1 : Nat × ℚ) (rest : List (Nat × ℚ)) (t : Nat) :
    (Nat × ℚ) × (Nat × ℚ) :=
  let last := (e1 :: rest).getLastD e1
  let penult := ((e0 :: e1 :: rest).dropLast).getLastD e0
  (selectGo t e0 e1 penult last (e0 :: e1 :: rest)).getD (e0, last)

/-- `estimateMsForSteps` of `SokobanGame.tsx`.  The declared return type is
`number | null`, but every branch returns a number, so the model returns a
real.  The `Number.isFinite` filter never removes anything here because the
model's samples are always finite. -/
noncomputable def estimateMsForSteps (timings : List (Nat × ℚ)) (targetSteps : Nat) : ℝ :=
  match lookupSteps timings targetSteps with
  | some direct => (direct : ℝ)
  | none =>
    match sortEntries timings with
    | [] =>
      match lookupSteps DEFAULT_ESTIMATE_MS_BY_STEPS targetSteps with
      | some fallback => (fallback : ℝ)
      | none =>
        let baseSteps : Nat := 35
        let baseMs : ℚ := (lookupSteps DEFAULT_ESTIMATE_MS_BY_STEPS baseSteps).getD 3500
        ((jsRound ((baseMs : ℝ) * ((targetSteps : ℝ) / (baseSteps : ℝ)) ^ (4 : ℝ))) : ℝ)
    | [base] =>
      ((jsRound ((base.2 : ℝ) * ((targetSteps : ℝ) / (base.1 : ℝ)) ^ (4 : ℝ))) : ℝ)
    | e0 :: e1 :: rest =>
      let pair := selectPair e0 e1 rest targetSteps
      let lower := pair.1
      let upper := pair.2
      let p : ℝ := Real.log ((upper.2 : ℝ) / (lower.2 : ℝ)) /
        Real.log ((upper.1 : ℝ) / (lower.1 : ℝ))
      let c : ℝ := (lower.2 : ℝ) / (lower.1 : ℝ) ^ p
      ((jsRound (c * (targetSteps : ℝ) ^ p)) : ℝ)

/-- The sample table of claim C9: `{25: 1000 ms, 50: 16000 ms}`. -/
def sampleTimings : List (Nat × ℚ) := [(25, 1000), (50, 16000)]

/-- Closed form of `estimateMsForSteps sampleTimings`: the power law fitted
through the two samples has exponent `4` and coefficient `1000 / 25⁴`. -/
noncomputable def estC9 (t : Nat) : ℝ :=
  ((jsRound ((1000 : ℝ) / 25 ^ (4 : ℕ) * (t : ℝ) ^ (4 : ℕ))) : ℝ)

/-! ### Level parsing (`parseLevel` in `app/data/levels.ts`)

`parseLevel` pads the raw rows into a `height × width` rectangle of
characters, runs a BFS flood fill over blank cells seeded from the whole
outer boundary to detect exterior "void" blanks, and then translates the
symbolic alphabet into the cell grid plus the player/box/goal entities.
The BFS queue/mutable-marks loop is modelled with an explicit
marks-and-queue state and a fuel bound (`6·w·h + 1`), which is proved
sufficient for the loop to drain its queue. -/

/-- The result of `parseLevel`: translated cell grid plus extracted entities
(the `id`/`name`/`difficulty` metadata it copies through is not modelled). -/
structure ParsedLevel where
  parsedGrid : List (List Char)
  initialPlayer : Point
  initialBoxes : List Point
  goals : List Point
deriving DecidableEq, Repr

/-- `rawGrid[y][x]` of the padded rectangular raw grid: the character of row
`y` at column `x`, blanks beyond the ragged row ends (`rowStr[x] ?? ' '`). -/
def rawAt (rows : List (List Char)) (x y : Nat) : Char :=
  (rows.getD y []).getD x ' '

/-- `Math.max(...level.grid.map(r => r.length))` (for zero rows the JS value
is `-Infinity`; no loop body runs in that case, so `0` is equivalent). -/
def gridWidth (rows : List (List Char)) : Nat :=
  (rows.map List.length).foldr max 0

/-- `enqueueIfVoidSpace`: ignore out-of-bounds, already-marked or non-blank
cells; otherwise mark the cell as void and push it on the BFS queue. -/
def enqueueIfVoidSpace (rows : List (List Char)) (w h : Nat)
    (st : Finset (Int × Int) × List (Int × Int)) (x y : Int) :
    Finset (Int × Int) × List (Int × Int) :=
  if x < 0 ∨ (w : Int) ≤ x ∨ y < 0 ∨ (h : Int) ≤ y then st
  else if (x, y) ∈ st.1 then st
  else if rawAt rows x.toNat y.toNat ≠ ' ' then st
  else (insert (x, y) st.1, st.2 ++ [(x, y)])

/-- The boundary seeding of the flood fill: every cell of the top and bottom
rows, then of the left and right columns. -/
def floodSeed (rows : List (List Char)) (w h : Nat) :
    Finset (Int × Int) × List (Int × Int) :=
  let st1 := (List.range w).foldl
    (fun st (x : Nat) => enqueueIfVoidSpace rows w h
      (enqueueIfVoidSpace rows w h st (x : Int) 0) (x : Int) ((h : Int) - 1)) (∅, [])
  (List.range h).foldl
    (fun st (y : Nat) => enqueueIfVoidSpace rows w h
      (enqueueIfVoidSpace rows w h st 0 (y : Int)) ((w : Int) - 1) (y : Int)) st1

/-- The BFS loop `while (queue.length > 0)`: pop the front cell and try to
enqueue its four orthogonal neighbours.  `fuel` bounds the number of
iterations; `floodFill` supplies enough for the queue to drain. -/
def floodLoop (rows : List (List Char)) (w h : Nat) :
    Nat → Finset (Int × Int) × List (Int × Int) → Finset (Int × Int)
  | 0, st => st.1
  | _ + 1, (marks, []) => marks
  | fuel + 1, (marks, (x, y) :: rest) =>
    let st1 := enqueueIfVoidSpace rows w h (marks, rest) (x - 1) y
    let st2 := enqueueIfVoidSpace rows w h st1 (x + 1) y
    let st3 := enqueueIfVoidSpace rows w h st2 x (y - 1)
    let st4 := enqueueIfVoidSpace rows w h st3 x (y + 1)
    floodLoop rows w h fuel st4

/-- The full flood fill: the final `isVoid` marks. -/
def floodFill (rows : List (List Char)) (w h : Nat) : Finset (Int × Int) :=
  floodLoop rows w h (6 * w * h + 1) (floodSeed rows w h)

/-- The per-character translation of the `switch` in `parseLevel`, applied
outside the void-blank shortcut. -/
def translateChar (c : Char) (void : Bool) : Char :=
  if c = ' ' ∧ void then 'x'
  else if c = '#' then '#'
  else if c = ' ' then ' '
  else if c = '.' then '.'
  else if c = '@' then ' '
  else if c = '$' then ' '
  else if c = '*' then '.'
  else if c = '+' then '.'
  else ' '

/-- Row-major traversal order of the translation loops (`y` outer, `x`
inner). -/
def rowMajorCoords (w h : Nat) : List (Nat × Nat) :=
  (List.range h).flatMap fun y => (List.range w).map fun x => (x, y)

/-- `parseLevel` on the padded character rows.  The single translation pass
of the source builds the grid, the goal list, the box list (row-major
first-encounter order) and the player (the last player symbol encountered
wins, defaulting to `(0,0)` when none is present); it is decomposed here
into one traversal per component over the same row-major coordinate list. -/
def parseLevelChars (rows : List (List Char)) : ParsedLevel :=
  let height := rows.length
  let width := gridWidth rows
  let voidMarks := floodFill rows width height
  { parsedGrid :=
      (List.range height).map fun y =>
        (List.range width).map fun x =>
          translateChar (rawAt rows x y) (decide (((x : Int), (y : Int)) ∈ voidMarks))
    initialPlayer :=
      (rowMajorCoords width height).foldl
        (fun p c =>
          if rawAt rows c.1 c.2 = '@' ∨ rawAt rows c.1 c.2 = '+' then
            ⟨(c.1 : Int), (c.2 : Int)⟩
          else p)
        ⟨0, 0⟩
    initialBoxes :=
      (rowMajorCoords width height).filterMap fun c =>
        if rawAt rows c.1 c.2 = '$' ∨ rawAt rows c.1 c.2 = '*' then
          some ⟨(c.1 : Int), (c.2 : Int)⟩
        else none
    goals :=
      (rowMajorCoords width height).filterMap fun c =>
        if rawAt rows c.1 c.2 = '.' ∨ rawAt rows c.1 c.2 = '*' ∨ rawAt rows c.1 c.2 = '+' then
          some ⟨(c.1 : Int), (c.2 : Int)⟩
        else none }

/-- `parseLevel` on the level's raw text lines. -/
def parseLevel (grid : List String) : ParsedLevel :=
  parseLevelChars (grid.map String.toList)

/-- An in-bounds blank (raw space) cell of the padded grid. -/
def BlankAt (rows : List (List Char)) (w h : Nat) (p : Int × Int) : Prop :=
  0 ≤ p.1 ∧ p.1 < (w : Int) ∧ 0 ≤ p.2 ∧ p.2 < (h : Int) ∧
    rawAt rows p.1.toNat p.2.toNat = ' '

instance (rows : List (List Char)) (w h : Nat) (p : Int × Int) :
    Decidable (BlankAt rows w h p) := by
  unfold BlankAt; infer_instance

/-- One orthogonal step between two blank cells. -/
def BlankStep (rows : List (List Char)) (w h : Nat) (p q : Int × Int) : Prop :=
  BlankAt rows w h p ∧ BlankAt rows w h q ∧
    ((q.1 = p.1 - 1 ∧ q.2 = p.2) ∨ (q.1 = p.1 + 1 ∧ q.2 = p.2) ∨
      (q.1 = p.1 ∧ q.2 = p.2 - 1) ∨ (q.1 = p.1 ∧ q.2 = p.2 + 1))

/-- A blank cell on the outer boundary of the padded grid. -/
def BoundaryBlank (rows : List (List Char)) (w h : Nat) (p : Int × Int) : Prop :=
  BlankAt rows w h p ∧
    (p.1 = 0 ∨ p.1 = (w : Int) - 1 ∨ p.2 = 0 ∨ p.2 = (h : Int) - 1)

/-- Exterior blank: reachable from some boundary blank through orthogonally
adjacent blanks (the cells claim C7 says become `Void`). -/
def ExteriorBlank (rows : List (List Char)) (w h : Nat) (p : Int × Int) : Prop :=
  ∃ b, BoundaryBlank rows w h b ∧ Relation.ReflTransGen (BlankStep rows w h) b p

/-- The finite set of blank in-bounds cells (used for the BFS fuel bound). -/
def blankFinset (rows : List (List Char)) (w h : Nat) : Finset (Int × Int) :=
  (((Finset.range w) ×ˢ (Finset.range h)).filter
    (fun a => rawAt rows a.1 a.2 = ' ')).image fun a => ((a.1 : Int), (a.2 : Int))

/-- Termination measure of the BFS: five per unmarked blank cell plus one
per queued cell; every loop iteration strictly decreases it. -/
def floodMeasure (rows : List (List Char)) (w h : Nat)
    (st : Finset (Int × Int) × List (Int × Int)) : Nat :=
  5 * ((blankFinset rows w h) \ st.1).card + st.2.length

/-- Invariant of the flood-fill state: marked cells are exterior blanks, the
queue lists marked cells without duplicates, and every marked cell no longer
on the queue already has all its blank neighbours marked. -/
def FloodInvariant (rows : List (List Char)) (w h : Nat)
    (st : Finset (Int × Int) × List (Int × Int)) : Prop :=
  (∀ p ∈ st.1, ExteriorBlank rows w h p) ∧
  (∀ p ∈ st.1, BlankAt rows w h p) ∧
  (∀ p ∈ st.2, p ∈ st.1) ∧
  st.2.Nodup ∧
  (∀ p ∈ st.1, p ∉ st.2 → ∀ q, BlankStep rows w h p q → q ∈ st.1)

/-! ### Random level generation (`generateRandomLevel` in `app/data/levels.ts`)

`Math.random()` is modelled by an explicit stream `g : Nat → Nat` of draws
with a cursor: `Math.floor(Math.random() * k)` becomes `g idx % k` — exactly
the values `0 .. k-1` are representable, so quantifying over all streams
quantifies over all outcomes of the source's draws.  Positions are integer
pairs; the transient pull arithmetic `box - dir` can go negative before its
bounds check rejects it, exactly as in the source. -/

/-- The random-draw stream. -/
structure Rng where
  g : Nat → Nat
  idx : Nat

/-- One `Math.floor(Math.random() * k)` draw. -/
def draw (r : Rng) (k : Nat) : Nat × Rng :=
  (if k = 0 then 0 else r.g r.idx % k, ⟨r.g, r.idx + 1⟩)

/-- One per-tier row of the `configs` table. -/
structure GenConfig where
  width : Nat
  height : Nat
  boxes : Nat
  moves : Nat

/-- `configs[difficulty] || configs[2]`. -/
def genConfig (difficulty : Nat) : GenConfig :=
  if difficulty = 1 then ⟨8, 7, 1, 30⟩
  else if difficulty = 2 then ⟨10, 8, 2, 40⟩
  else if difficulty = 3 then ⟨12, 10, 3, 50⟩
  else ⟨10, 8, 2, 40⟩

/-- `grid[y][x]` on integer coordinates; out-of-bounds reads give `'?'`
(standing for JS `undefined`, which compares unequal to every cell char).
All reads the generator performs are in fact in bounds. -/
def cellI (grid : List (List Char)) (x y : Int) : Char :=
  if 0 ≤ x ∧ 0 ≤ y then (grid.getD y.toNat []).getD x.toNat '?' else '?'

/-- `grid[y][x] = c` (in-bounds by the callers' checks; out-of-bounds writes
are dropped). -/
def setCell (grid : List (List Char)) (x y : Int) (c : Char) : List (List Char) :=
  if 0 ≤ x ∧ 0 ≤ y then grid.set y.toNat ((grid.getD y.toNat []).set x.toNat c)
  else grid

/-- `countWallNeighbors`: how many of the eight neighbours are `'#'`. -/
def countWallNeighbors (grid : List (List Char)) (x y : Int) : Nat :=
  ([((-1 : Int), (-1 : Int)), (0, -1), (1, -1),
    (-1, 0), (1, 0),
    (-1, 1), (0, 1), (1, 1)].filter
      fun d => cellI grid (x + d.1) (y + d.2) = '#').length

/-- The bordered empty rectangle the generator starts from. -/
def initialGrid (cfg : GenConfig) : List (List Char) :=
  (List.range cfg.height).map fun y =>
    (List.range cfg.width).map fun x =>
      if x = 0 ∨ x = cfg.width - 1 ∨ y = 0 ∨ y = cfg.height - 1 then '#' else ' '

/-- The wall-scatter loop: `numWalls` iterations, each drawing an interior
cell in `[2, w-3] × [2, h-3]` and turning it into a wall if still empty. -/
def scatterWalls (cfg : GenConfig) :
    Nat → List (List Char) → Rng → List (List Char) × Rng
  | 0, grid, rng => (grid, rng)
  | n + 1, grid, rng =>
    let (rx, rng1) := draw rng (cfg.width - 4)
    let (ry, rng2) := draw rng1 (cfg.height - 4)
    let x : Int := 2 + rx
    let y : Int := 2 + ry
    let grid' := if cellI grid x y = ' ' then setCell grid x y '#' else grid
    scatterWalls cfg n grid' rng2

/-- The goal-placement loop (`while goals.length < boxes && attempts < 100`):
draw an interior cell; accept it as a goal if it is empty, not already a
goal, and has at least two free orthogonal neighbours. -/
def placeGoals (cfg : GenConfig) :
    Nat → List (List Char) → List (Int × Int) → Rng →
      List (List Char) × List (Int × Int) × Rng
  | 0, grid, goals, rng => (grid, goals, rng)
  | n + 1, grid, goals, rng =>
    if goals.length < cfg.boxes then
      let (rx, rng1) := draw rng (cfg.width - 4)
      let (ry, rng2) := draw rng1 (cfg.height - 4)
      let x : Int := 2 + rx
      let y : Int := 2 + ry
      if cellI grid x y = ' ' ∧ ¬(goals.any fun gl => gl.1 = x ∧ gl.2 = y) then
        let freeSpaces := ([cellI grid x (y - 1) == ' ', cellI grid x (y + 1) == ' ',
          cellI grid (x - 1) y == ' ', cellI grid (x + 1) y == ' '].filter id).length
        if 2 ≤ freeSpaces then
          placeGoals cfg n (setCell grid x y '.') (goals ++ [(x, y)]) rng2
        else placeGoals cfg n grid goals rng2
      else placeGoals cfg n grid goals rng2
    else (grid, goals, rng)

/-- The initial player scan.  In the source the outer loop over rows always
breaks after its first iteration (`if (player.x > 0) break` is always true),
so the player is the first non-wall, box-free cell of row 1, or the default
`(2,2)` when that row has none. -/
def findRow1Player (cfg : GenConfig) (grid : List (List Char))
    (boxes : List (Int × Int)) : Int × Int :=
  match (List.range (cfg.width - 2)).findSome? (fun i =>
    let x : Int := 1 + i
    if cellI grid x 1 ≠ '#' ∧ ¬(boxes.any fun b => b.1 = x ∧ b.2 = 1) then
      some (x, 1)
    else none) with
  | some p => p
  | none => (2, 2)

/-- The pull directions `dirs`. -/
def pullDirs : List (Int × Int) := [(1, 0), (-1, 0), (0, 1), (0, -1)]

/-- State threaded through the reverse-pull loop. -/
structure PullState where
  boxes : List (Int × Int)
  player : Int × Int
  rng : Rng
  successes : Nat

/-- One reverse-pull attempt: pick a random box and direction, verify that
the pulled box position and the player position are interior, empty and
unoccupied, and that the box's new position has at most one wall among its
eight neighbours; `b !== box` is object identity in the source and the boxes
are distinct objects, so it is modelled by index inequality. -/
def pullAttempt (cfg : GenConfig) (grid : List (List Char)) (st : PullState) :
    PullState :=
  let (bi, rng1) := draw st.rng st.boxes.length
  let (di, rng2) := draw rng1 4
  let box := st.boxes.getD bi (0, 0)
  let dir := pullDirs.getD di (0, 0)
  let playerX := box.1 + dir.1
  let playerY := box.2 + dir.2
  let newBoxX := box.1 - dir.1
  let newBoxY := box.2 - dir.2
  if newBoxX ≤ 0 ∨ (cfg.width : Int) - 1 ≤ newBoxX
      ∨ newBoxY ≤ 0 ∨ (cfg.height : Int) - 1 ≤ newBoxY then
    { st with rng := rng2 }
  else if cellI grid newBoxX newBoxY = '#' then { st with rng := rng2 }
  else if (List.range st.boxes.length).any fun j =>
      decide (j ≠ bi ∧ (st.boxes.getD j (0, 0)).1 = newBoxX
        ∧ (st.boxes.getD j (0, 0)).2 = newBoxY) then
    { st with rng := rng2 }
  else if playerX ≤ 0 ∨ (cfg.width : Int) - 1 ≤ playerX
      ∨ playerY ≤ 0 ∨ (cfg.height : Int) - 1 ≤ playerY then
    { st with rng := rng2 }
  else if cellI grid playerX playerY = '#' then { st with rng := rng2 }
  else if st.boxes.any fun b => decide (b.1 = playerX ∧ b.2 = playerY) then
    { st with rng := rng2 }
  else if 1 < countWallNeighbors grid newBoxX newBoxY then { st with rng := rng2 }
  else
    { boxes := st.boxes.set bi (newBoxX, newBoxY)
      player := (playerX, playerY)
      rng := rng2
      successes := st.successes + 1 }

/-- The pull loop: up to `moves * 5` attempts, stopping early once `moves`
pulls succeeded. -/
def pullLoop (cfg : GenConfig) (grid : List (List Char)) :
    Nat → PullState → PullState
  | 0, st => st
  | n + 1, st =>
    if st.successes < cfg.moves then pullLoop cfg grid n (pullAttempt cfg grid st)
    else st

/-- Validity of a relocation target for box `bi` during the repair pass:
non-wall, not a goal, not occupied by another box, at most one wall
neighbour, and not the player's cell. -/
def relocationOk (cfg : GenConfig) (grid : List (List Char))
    (goals : List (Int × Int)) (boxes : List (Int × Int)) (player : Int × Int)
    (bi : Nat) (rx ry : Int) : Prop :=
  cellI grid rx ry ≠ '#' ∧
  ¬(goals.any fun gl => gl.1 = rx ∧ gl.2 = ry) ∧
  ¬((List.range boxes.length).any fun j =>
      decide (j ≠ bi ∧ (boxes.getD j (0, 0)).1 = rx ∧ (boxes.getD j (0, 0)).2 = ry)) ∧
  countWallNeighbors grid rx ry ≤ 1 ∧
  ¬(player.1 = rx ∧ player.2 = ry)

instance (cfg : GenConfig) (grid : List (List Char)) (goals boxes : List (Int × Int))
    (player : Int × Int) (bi : Nat) (rx ry : Int) :
    Decidable (relocationOk cfg grid goals boxes player bi rx ry) := by
  unfold relocationOk; infer_instance

/-- The 50-attempt random relocation search of the repair pass. -/
def randomRelocate (cfg : GenConfig) (grid : List (List Char))
    (goals : List (Int × Int)) (player : Int × Int) :
    Nat → List (Int × Int) → Nat → Rng → Option (Int × Int) × Rng
  | 0, _, _, rng => (none, rng)
  | n + 1, boxes, bi, rng =>
    let (rxn, rng1) := draw rng (cfg.width - 2)
    let (ryn, rng2) := draw rng1 (cfg.height - 2)
    let rx : Int := 1 + rxn
    let ry : Int := 1 + ryn
    if relocationOk cfg grid goals boxes player bi rx ry then (some (rx, ry), rng2)
    else randomRelocate cfg grid goals player n boxes bi rng2

/-- The interior cells in the row-major order of the exhaustive scans
(`y` from 1 to `height-2` outer, `x` from 1 to `width-2` inner). -/
def interiorCoords (cfg : GenConfig) : List (Int × Int) :=
  (List.range (cfg.height - 2)).flatMap fun (j : Nat) =>
    (List.range (cfg.width - 2)).map fun (i : Nat) => (1 + (i : Int), 1 + (j : Int))

/-- The exhaustive row-major fallback scan of the repair pass. -/
def scanRelocate (cfg : GenConfig) (grid : List (List Char))
    (goals : List (Int × Int)) (boxes : List (Int × Int)) (player : Int × Int)
    (bi : Nat) : Option (Int × Int) :=
  (interiorCoords cfg).find? fun c =>
    decide (relocationOk cfg grid goals boxes player bi c.1 c.2)

/-- One box's treatment inside a repair iteration: if it rests on a goal or
has more than one wall neighbour, mark the iteration invalid and relocate it
(random search first, exhaustive scan as fallback, give up if neither finds
a cell). -/
def repairBox (cfg : GenConfig) (grid : List (List Char))
    (goals : List (Int × Int)) (player : Int × Int)
    (acc : List (Int × Int) × Rng × Bool) (bi : Nat) :
    List (Int × Int) × Rng × Bool :=
  let boxes := acc.1
  let rng := acc.2.1
  let box := boxes.getD bi (0, 0)
  if (goals.any fun gl => gl.1 = box.1 ∧ gl.2 = box.2)
      ∨ 1 < countWallNeighbors grid box.1 box.2 then
    match randomRelocate cfg grid goals player 50 boxes bi rng with
    | (some cell, rng') => (boxes.set bi cell, rng', false)
    | (none, rng') =>
      match scanRelocate cfg grid goals boxes player bi with
      | some cell => (boxes.set bi cell, rng', false)
      | none => (boxes, rng', false)
  else acc

/-- One iteration of the repair `while` loop: check (and possibly relocate)
every box in order; later boxes see earlier relocations. -/
def repairIter (cfg : GenConfig) (grid : List (List Char))
    (goals : List (Int × Int)) (player : Int × Int)
    (st : List (Int × Int) × Rng) : List (Int × Int) × Rng × Bool :=
  (List.range st.1.length).foldl (repairBox cfg grid goals player)
    (st.1, st.2, true)

/-- The repair loop: iterate until an iteration finds every box valid, or
the 500-iteration cap is hit (imperfect boxes are then accepted). -/
def repairLoop (cfg : GenConfig) (grid : List (List Char))
    (goals : List (Int × Int)) (player : Int × Int) :
    Nat → List (Int × Int) × Rng → List (Int × Int) × Rng
  | 0, st => st
  | n + 1, st =>
    match repairIter cfg grid goals player st with
    | (boxes', rng', valid) =>
      if valid then (boxes', rng') else repairLoop cfg grid goals player n (boxes', rng')

/-- The final player fix-up: if the player stands on a goal, move it to the
first row-major interior cell that is non-wall, not a goal and not a box. -/
def fixPlayer (cfg : GenConfig) (grid : List (List Char))
    (goals : List (Int × Int)) (boxes : List (Int × Int))
    (player : Int × Int) : Int × Int :=
  if goals.any fun gl => gl.1 = player.1 ∧ gl.2 = player.2 then
    match (interiorCoords cfg).find? (fun c =>
      decide (cellI grid c.1 c.2 ≠ '#' ∧
        ¬(goals.any fun gl => gl.1 = c.1 ∧ gl.2 = c.2) ∧
        ¬(boxes.any fun b => b.1 = c.1 ∧ b.2 = c.2))) with
    | some c => c
    | none => player
  else player

/-- `generateRandomLevel`.  The source retries the whole generation by
unbounded recursion when goal placement fails; `fuel` bounds those retries
(`none` = still failing when it runs out). -/
def generateRandomLevel : Nat → Rng → Nat → Option (ParsedLevel × Rng)
  | 0, _, _ => none
  | fuel + 1, rng, difficulty =>
    let cfg := genConfig difficulty
    let grid0 := initialGrid cfg
    let numWalls := cfg.width * cfg.height / 10
    let (grid1, rng1) := scatterWalls cfg numWalls grid0 rng
    let (grid2, goals, rng2) := placeGoals cfg 100 grid1 [] rng1
    if goals.length < cfg.boxes then generateRandomLevel fuel rng2 difficulty
    else
      let boxes0 := goals
      let player0 := findRow1Player cfg grid2 boxes0
      let pulled := pullLoop cfg grid2 (cfg.moves * 5) ⟨boxes0, player0, rng2, 0⟩
      let repaired := repairLoop cfg grid2 goals pulled.player 500 (pulled.boxes, pulled.rng)
      let playerF := fixPlayer cfg grid2 goals repaired.1 pulled.player
      some ({ parsedGrid := grid2
              initialPlayer := ⟨playerF.1, playerF.2⟩
              initialBoxes := repaired.1.map fun b => ⟨b.1, b.2⟩
              goals := goals.map fun gl => ⟨gl.1, gl.2⟩ }, repaired.2)

/-- The draw stream of the C8 counterexample: walls at `(2,3) (3,3) (4,3)
(5,3)` (the fifth draw repeats `(2,3)` and is skipped), the goal at `(2,2)`,
and zeros forever afterwards. -/
def cexDraws : List Nat := [0, 1, 1, 1, 2, 1, 3, 1, 0, 1, 0, 0]

/-- The counterexample stream as an `Rng`. -/
def cexRng : Rng := ⟨fun n => cexDraws.getD n 0, 0⟩

/-- The counterexample grid right after wall scattering (before the goal is
painted in). -/
def cexGridPre : List (List Char) :=
  [['#', '#', '#', '#', '#', '#', '#', '#'],
   ['#', ' ', ' ', ' ', ' ', ' ', ' ', '#'],
   ['#', ' ', ' ', ' ', ' ', ' ', ' ', '#'],
   ['#', ' ', '#', '#', '#', '#', ' ', '#'],
   ['#', ' ', ' ', ' ', ' ', ' ', ' ', '#'],
   ['#', ' ', ' ', ' ', ' ', ' ', ' ', '#'],
   ['#', '#', '#', '#', '#', '#', '#', '#']]

/-- The grid the counterexample stream produces (difficulty 1, 8×7): a wall
segment across the middle row and the goal at `(2,2)`. -/
def cexGrid : List (List Char) :=
  [['#', '#', '#', '#', '#', '#', '#', '#'],
   ['#', ' ', ' ', ' ', ' ', ' ', ' ', '#'],
   ['#', ' ', '.', ' ', ' ', ' ', ' ', '#'],
   ['#', ' ', '#', '#', '#', '#', ' ', '#'],
   ['#', ' ', ' ', ' ', ' ', ' ', ' ', '#'],
   ['#', ' ', ' ', ' ', ' ', ' ', ' ', '#'],
   ['#', '#', '#', '#', '#', '#', '#', '#']]

/-- A quickly converging draw stream (difficulty 1): one inner wall at
`(2,2)`, the goal at `(3,2)`, every pull rejected (pulling through the
wall), and one successful repair relocation to `(4,4)`. -/
def witRng : Rng :=
  ⟨fun n => if n = 10 then 1 else if n = 312 ∨ n = 313 then 3 else 0, 0⟩

/-- The grid `witRng` produces: border walls, one inner wall at `(2,2)` and
the goal at `(3,2)`. -/
def witGrid : List (List Char) :=
  [['#', '#', '#', '#', '#', '#', '#', '#'],
   ['#', ' ', ' ', ' ', ' ', ' ', ' ', '#'],
   ['#', ' ', '#', '.', ' ', ' ', ' ', '#'],
   ['#', ' ', ' ', ' ', ' ', ' ', ' ', '#'],
   ['#', ' ', ' ', ' ', ' ', ' ', ' ', '#'],
   ['#', ' ', ' ', ' ', ' ', ' ', ' ', '#'],
   ['#', '#', '#', '#', '#', '#', '#', '#']]

end Sokoban

namespace Sokoban

/-! ### Basic lemmas about the move engine -/

theorem findBoxIdx_isSome_iff_boxAt (boxes : List Point) (x y : Int) :
    (findBoxIdx boxes x y).isSome = boxAt boxes x y := by
  induction boxes with
  | nil => rfl
  | cons b rest ih =>
    rw [findBoxIdx, boxAt, List.any_cons]
    by_cases h : b.x = x ∧ b.y = y
    · simp [h]
    · rw [if_neg h, decide_eq_false h, Bool.false_or,
        show (rest.any fun b => decide (b.x = x ∧ b.y = y)) = boxAt rest x y from rfl,
        ← ih]
      cases findBoxIdx rest x y <;> rfl

theorem findBoxIdx_eq_some (boxes : List Point) (x y : Int) (i : Nat)
    (h : findBoxIdx boxes x y = some i) :
    i < boxes.length ∧ boxes.get? i = some ⟨x, y⟩ := by
  induction boxes generalizing i with
  | nil => simp [findBoxIdx] at h
  | cons b rest ih =>
    rw [findBoxIdx] at h
    by_cases hb : b.x = x ∧ b.y = y
    · rw [if_pos hb] at h
      have hi : i = 0 := (Option.some.inj h).symm
      subst hi
      refine ⟨by simp, ?_⟩
      have : b = Point.mk x y := by cases b; simp_all
      simp [this]
    · rw [if_neg hb, Option.map_eq_some'] at h
      obtain ⟨j, hj, hji⟩ := h
      subst hji
      obtain ⟨h1, h2⟩ := ih j hj
      exact ⟨by simpa using h1, by simpa using h2⟩

theorem boxAt_eq_true_iff (boxes : List Point) (x y : Int) :
    boxAt boxes x y = true ↔ ∃ b ∈ boxes, b.x = x ∧ b.y = y := by
  simp [boxAt]

theorem isWall_false_y_bounds (grid : List (List Char)) (x y : Int)
    (h : isWall grid x y = false) :
    ¬(y < 0 ∨ (grid.length : Int) ≤ y) := by
  intro hy
  rw [isWall, if_pos hy] at h
  exact Bool.true_eq_false.mp h

/-- Branch evaluation: target cell is a wall/void/out of bounds. -/
theorem move_eval_wall (s : GameState) (dir : MoveDirection)
    (hw : isWall s.grid (s.player.x + (delta dir).x) (s.player.y + (delta dir).y) = true) :
    move s dir = ⟨false, s, false⟩ := by
  unfold move
  dsimp only
  rw [if_pos hw]

/-- Branch evaluation: plain walk (no box on the target cell). -/
theorem move_eval_walk (s : GameState) (dir : MoveDirection)
    (hw : isWall s.grid (s.player.x + (delta dir).x) (s.player.y + (delta dir).y) = false)
    (hnone : findBoxIdx s.boxes (s.player.x + (delta dir).x) (s.player.y + (delta dir).y) = none) :
    move s dir =
      ⟨true,
        { s with
          player := ⟨s.player.x + (delta dir).x, s.player.y + (delta dir).y⟩
          moveCount := s.moveCount + 1
          moveHistory := s.moveHistory ++ [⟨s.player, s.boxes, s.moveCount⟩] },
        false⟩ := by
  unfold move
  dsimp only
  rw [if_neg (by rw [hw]; simp), hnone]
  dsimp only [saveState]

/-- Branch evaluation: push attempt with a blocked destination. -/
theorem move_eval_push_blocked (s : GameState) (dir : MoveDirection) (i : Nat)
    (hw : isWall s.grid (s.player.x + (delta dir).x) (s.player.y + (delta dir).y) = false)
    (hfind : findBoxIdx s.boxes (s.player.x + (delta dir).x) (s.player.y + (delta dir).y) = some i)
    (hcond : s.player.y + (delta dir).y + (delta dir).y < 0
      ∨ (s.grid.length : Int) ≤ s.player.y + (delta dir).y + (delta dir).y
      ∨ isWall s.grid (s.player.x + (delta dir).x + (delta dir).x)
          (s.player.y + (delta dir).y + (delta dir).y) = true
      ∨ boxAt s.boxes (s.player.x + (delta dir).x + (delta dir).x)
          (s.player.y + (delta dir).y + (delta dir).y) = true) :
    move s dir = ⟨false, s, false⟩ := by
  unfold move
  dsimp only
  rw [if_neg (by rw [hw]; simp), hfind]
  dsimp only
  rw [if_pos hcond]

/-- Branch evaluation: successful push. -/
theorem move_eval_push (s : GameState) (dir : MoveDirection) (i : Nat)
    (hw : isWall s.grid (s.player.x + (delta dir).x) (s.player.y + (delta dir).y) = false)
    (hfind : findBoxIdx s.boxes (s.player.x + (delta dir).x) (s.player.y + (delta dir).y) = some i)
    (hcond : ¬(s.player.y + (delta dir).y + (delta dir).y < 0
      ∨ (s.grid.length : Int) ≤ s.player.y + (delta dir).y + (delta dir).y
      ∨ isWall s.grid (s.player.x + (delta dir).x + (delta dir).x)
          (s.player.y + (delta dir).y + (delta dir).y) = true
      ∨ boxAt s.boxes (s.player.x + (delta dir).x + (delta dir).x)
          (s.player.y + (delta dir).y + (delta dir).y) = true)) :
    move s dir =
      ⟨true,
        { s with
          player := ⟨s.player.x + (delta dir).x, s.player.y + (delta dir).y⟩
          boxes := s.boxes.set i ⟨s.player.x + (delta dir).x + (delta dir).x,
            s.player.y + (delta dir).y + (delta dir).y⟩
          moveCount := s.moveCount + 1
          moveHistory := s.moveHistory ++ [⟨s.player, s.boxes, s.moveCount⟩] },
        winPred (s.boxes.set i ⟨s.player.x + (delta dir).x + (delta dir).x,
          s.player.y + (delta dir).y + (delta dir).y⟩) s.goals⟩ := by
  unfold move
  dsimp only
  rw [if_neg (by rw [hw]; simp), hfind]
  dsimp only
  rw [if_neg hcond]
  dsimp only [saveState]

/-- A blocked `move` (claim C1's condition) returns `false` and leaves the
whole game state unchanged, with no victory signal. -/
theorem move_of_blocked (s : GameState) (dir : MoveDirection)
    (h : moveBlocked s dir) :
    move s dir = ⟨false, s, false⟩ := by
  rw [moveBlocked] at h
  by_cases hw : isWall s.grid (s.player.x + (delta dir).x) (s.player.y + (delta dir).y) = true
  · exact move_eval_wall s dir hw
  · rw [Bool.not_eq_true] at hw
    rcases h with h1 | ⟨hbox, hdest⟩
    · rw [hw] at h1; exact absurd h1 (by simp)
    · have hsome : (findBoxIdx s.boxes (s.player.x + (delta dir).x)
          (s.player.y + (delta dir).y)).isSome = true := by
        rw [findBoxIdx_isSome_iff_boxAt]; exact hbox
      obtain ⟨i, hi⟩ := Option.isSome_iff_exists.mp hsome
      refine move_eval_push_blocked s dir i hw hi ?_
      rcases hdest with h1 | h1
      · exact Or.inr (Or.inr (Or.inl h1))
      · exact Or.inr (Or.inr (Or.inr h1))

/-- Any successful `move` is undone exactly by one `undoMove`. -/
theorem undoMove_move (s : GameState) (dir : MoveDirection)
    (h : (move s dir).ok = true) :
    undoMove (move s dir).state = s := by
  by_cases hw : isWall s.grid (s.player.x + (delta dir).x) (s.player.y + (delta dir).y) = true
  · rw [move_eval_wall s dir hw] at h; exact absurd h (by simp)
  · rw [Bool.not_eq_true] at hw
    cases hfind : findBoxIdx s.boxes (s.player.x + (delta dir).x) (s.player.y + (delta dir).y) with
    | none =>
      rw [move_eval_walk s dir hw hfind]
      unfold undoMove
      dsimp only
      rw [List.getLast?_concat, List.dropLast_concat]
    | some i =>
      by_cases hcond : (s.player.y + (delta dir).y + (delta dir).y < 0
        ∨ (s.grid.length : Int) ≤ s.player.y + (delta dir).y + (delta dir).y
        ∨ isWall s.grid (s.player.x + (delta dir).x + (delta dir).x)
            (s.player.y + (delta dir).y + (delta dir).y) = true
        ∨ boxAt s.boxes (s.player.x + (delta dir).x + (delta dir).x)
            (s.player.y + (delta dir).y + (delta dir).y) = true)
      · rw [move_eval_push_blocked s dir i hw hfind hcond] at h
        exact absurd h (by simp)
      · rw [move_eval_push s dir i hw hfind hcond]
        unfold undoMove
        dsimp only
        rw [List.getLast?_concat, List.dropLast_concat]

theorem undoMove_grid_goals (t : GameState) :
    (undoMove t).grid = t.grid ∧ (undoMove t).goals = t.goals := by
  unfold undoMove
  cases t.moveHistory.getLast? <;> exact ⟨rfl, rfl⟩

/-! ### Claim theorems about the move engine -/

/-- **C1**: for every game state and direction, if the player's target cell is
a wall, void, or out of bounds, or the target holds a box whose one-step
further destination is a wall, void, out of bounds, or occupied by another
box, then `move` returns `false` and leaves `player`, `boxes`, `moveCount`
and the move history unchanged. -/
theorem C1_blocked_move_noop (s : GameState) (dir : MoveDirection)
    (h : moveBlocked s dir) :
    (move s dir).ok = false ∧
    (move s dir).state.player = s.player ∧
    (move s dir).state.boxes = s.boxes ∧
    (move s dir).state.moveCount = s.moveCount ∧
    (move s dir).state.moveHistory = s.moveHistory := by
  rw [move_of_blocked s dir h]
  exact ⟨rfl, rfl, rfl, rfl, rfl⟩

/-- Witness for C1: in the demo room, moving left into the wall is blocked
and is a no-op. -/
theorem C1_blocked_move_noop_witness :
    moveBlocked demoRoom .left ∧
    ((move demoRoom .left).ok = false ∧
      (move demoRoom .left).state.player = demoRoom.player ∧
      (move demoRoom .left).state.boxes = demoRoom.boxes ∧
      (move demoRoom .left).state.moveCount = demoRoom.moveCount ∧
      (move demoRoom .left).state.moveHistory = demoRoom.moveHistory) :=
  ⟨by decide, C1_blocked_move_noop demoRoom .left (by decide)⟩

/-- **C2**: for every game state (whose boxes sit on non-wall cells, the
documented `PuzzleState` invariant) and direction such that the target cell
holds a box (index `i`) and the box's one-step-further destination is
in-bounds, non-wall, non-void and unoccupied, `move` returns `true`, moves
exactly box `i` one step further (all other boxes keep position and index),
moves the player onto the box's old cell, appends the prior snapshot to the
history and increments `moveCount` by exactly one. -/
theorem C2_push_success (s : GameState) (dir : MoveDirection) (i : Nat)
    (hwf : ∀ b ∈ s.boxes, isWall s.grid b.x b.y = false)
    (hfind : findBoxIdx s.boxes (s.player.x + (delta dir).x)
      (s.player.y + (delta dir).y) = some i)
    (hdw : isWall s.grid (s.player.x + (delta dir).x + (delta dir).x)
      (s.player.y + (delta dir).y + (delta dir).y) = false)
    (hdb : boxAt s.boxes (s.player.x + (delta dir).x + (delta dir).x)
      (s.player.y + (delta dir).y + (delta dir).y) = false) :
    (move s dir).ok = true ∧
    s.boxes.get? i = some ⟨s.player.x + (delta dir).x, s.player.y + (delta dir).y⟩ ∧
    (move s dir).state.player = ⟨s.player.x + (delta dir).x, s.player.y + (delta dir).y⟩ ∧
    (move s dir).state.boxes = s.boxes.set i ⟨s.player.x + (delta dir).x + (delta dir).x,
      s.player.y + (delta dir).y + (delta dir).y⟩ ∧
    (∀ j, j ≠ i → (move s dir).state.boxes.get? j = s.boxes.get? j) ∧
    (move s dir).state.moveHistory = s.moveHistory ++ [⟨s.player, s.boxes, s.moveCount⟩] ∧
    (move s dir).state.moveCount = s.moveCount + 1 ∧
    (move s dir).state.grid = s.grid ∧
    (move s dir).state.goals = s.goals := by
  have hget := (findBoxIdx_eq_some _ _ _ _ hfind).2
  have hw : isWall s.grid (s.player.x + (delta dir).x) (s.player.y + (delta dir).y) = false := by
    have hm : Point.mk (s.player.x + (delta dir).x) (s.player.y + (delta dir).y) ∈ s.boxes :=
      List.get?_mem hget
    exact hwf _ hm
  have hbounds := isWall_false_y_bounds s.grid _ _ hdw
  rw [not_or] at hbounds
  have heval := move_eval_push s dir i hw hfind (by
    push_neg
    refine ⟨by omega, by omega, ?_, ?_⟩
    · rw [hdw]; simp
    · rw [hdb]; simp)
  rw [heval]
  refine ⟨rfl, hget, rfl, rfl, ?_, rfl, rfl, rfl, rfl⟩
  intro j hj
  exact List.get?_set_ne _ s.boxes (Ne.symm hj)

/-- Witness for C2: in the demo room, moving right pushes the single box from
`(2,1)` onto the goal `(3,1)`. -/
theorem C2_push_success_witness :
    ((∀ b ∈ demoRoom.boxes, isWall demoRoom.grid b.x b.y = false) ∧
      findBoxIdx demoRoom.boxes 2 1 = some 0 ∧
      isWall demoRoom.grid 3 1 = false ∧
      boxAt demoRoom.boxes 3 1 = false) ∧
    ((move demoRoom .right).ok = true ∧
      (move demoRoom .right).state.player = ⟨2, 1⟩ ∧
      (move demoRoom .right).state.boxes = [⟨3, 1⟩] ∧
      (move demoRoom .right).state.moveCount = 1) := by
  refine ⟨by decide, ?_⟩
  have h := C2_push_success demoRoom .right 0 (by decide) (by decide) (by decide) (by decide)
  exact ⟨h.1, h.2.2.1, h.2.2.2.1, h.2.2.2.2.2.2.1⟩

/-- **C3**: undoing `N` times after `N` successful moves restores exactly the
initial state (in particular its player, boxes and move counter); `undoMove`
never changes `grid` or `goals`; and `undoMove` on an empty history is a
no-op. -/
theorem C3_undo_restores (s : GameState) (ds : List MoveDirection)
    (h : movesOk s ds) :
    undoN ds.length (applyMoves s ds) = s ∧
    (∀ t : GameState, (undoMove t).grid = t.grid ∧ (undoMove t).goals = t.goals) ∧
    (∀ t : GameState, t.moveHistory = [] → undoMove t = t) := by
  refine ⟨?_, undoMove_grid_goals, ?_⟩
  · induction ds generalizing s with
    | nil => rfl
    | cons d ds ih =>
      obtain ⟨h1, h2⟩ := h
      show undoN (ds.length + 1) (applyMoves (move s d).state ds) = s
      rw [undoN, ih _ h2]
      exact undoMove_move s d h1
  · intro t ht
    unfold undoMove
    rw [ht]
    rfl

/-- Witness for C3: one successful push in the demo room, one undo. -/
theorem C3_undo_restores_witness :
    movesOk demoRoom [.right] ∧
    undoN 1 (applyMoves demoRoom [.right]) = demoRoom :=
  ⟨by decide, (C3_undo_restores demoRoom [.right] (by decide)).1⟩

/-- Counterexample to **C5** as stated: a plain walk in a state whose boxes
already all rest on goals is a successful move whose post-state satisfies the
win predicate, yet the victory signal is not triggered — the walking branch
of `move` never evaluates the win predicate. -/
theorem C5_counterexample :
    (move solvedRoom .right).ok = true ∧
    winPred (move solvedRoom .right).state.boxes (move solvedRoom .right).state.goals = true ∧
    (move solvedRoom .right).win = false := by decide

/-- **C5 (amended)**: the victory signal fires exactly on successful
box-pushing moves whose post-state satisfies the win predicate; rejected
moves leave the state unchanged and never fire it; and from any state that is
not already winning, the signal fires exactly on successful moves whose
post-state is winning (a plain walk cannot change the win predicate). -/
theorem C5_win_signal (s : GameState) (dir : MoveDirection) :
    ((move s dir).win = true ↔
      (move s dir).ok = true ∧
      boxAt s.boxes (s.player.x + (delta dir).x) (s.player.y + (delta dir).y) = true ∧
      winPred (move s dir).state.boxes (move s dir).state.goals = true) ∧
    ((move s dir).ok = false → (move s dir).state = s ∧ (move s dir).win = false) ∧
    (winPred s.boxes s.goals = false →
      ((move s dir).win = true ↔
        (move s dir).ok = true ∧
        winPred (move s dir).state.boxes (move s dir).state.goals = true)) := by
  by_cases hw : isWall s.grid (s.player.x + (delta dir).x) (s.player.y + (delta dir).y) = true
  · rw [move_eval_wall s dir hw]
    refine ⟨by simp, fun _ => ⟨rfl, rfl⟩, fun hnw => by simp⟩
  · rw [Bool.not_eq_true] at hw
    cases hfind : findBoxIdx s.boxes (s.player.x + (delta dir).x) (s.player.y + (delta dir).y) with
    | none =>
      have hbox : boxAt s.boxes (s.player.x + (delta dir).x) (s.player.y + (delta dir).y) = false := by
        rw [← findBoxIdx_isSome_iff_boxAt, hfind]
        rfl
      rw [move_eval_walk s dir hw hfind]
      refine ⟨by simp [hbox], by simp, fun hnw => ?_⟩
      dsimp only
      rw [show winPred s.boxes s.goals = false from hnw]
      simp
    | some i =>
      by_cases hcond : (s.player.y + (delta dir).y + (delta dir).y < 0
        ∨ (s.grid.length : Int) ≤ s.player.y + (delta dir).y + (delta dir).y
        ∨ isWall s.grid (s.player.x + (delta dir).x + (delta dir).x)
            (s.player.y + (delta dir).y + (delta dir).y) = true
        ∨ boxAt s.boxes (s.player.x + (delta dir).x + (delta dir).x)
            (s.player.y + (delta dir).y + (delta dir).y) = true)
      · rw [move_eval_push_blocked s dir i hw hfind hcond]
        refine ⟨by simp, fun _ => ⟨rfl, rfl⟩, fun hnw => by simp⟩
      · have hbox : boxAt s.boxes (s.player.x + (delta dir).x) (s.player.y + (delta dir).y) = true := by
          rw [← findBoxIdx_isSome_iff_boxAt, hfind]
          rfl
        rw [move_eval_push s dir i hw hfind hcond]
        exact ⟨by simp [hbox], by simp, fun hnw => by simp⟩

/-- Witness for C5 (amended): the demo-room push onto the goal triggers the
signal, and a blocked move is a no-op without a signal. -/
theorem C5_win_signal_witness :
    ((move demoRoom .right).win = true ↔
      (move demoRoom .right).ok = true ∧
      boxAt demoRoom.boxes 2 1 = true ∧
      winPred (move demoRoom .right).state.boxes (move demoRoom .right).state.goals = true) ∧
    ((move demoRoom .left).ok = false →
      (move demoRoom .left).state = demoRoom ∧ (move demoRoom .left).win = false) :=
  ⟨by simpa using (C5_win_signal demoRoom .right).1,
    (C5_win_signal demoRoom .left).2.1⟩

/-! ### Lemmas about the orchestrator -/

theorem recordTiming_latestId (st : OrchState) (r : SolvabilityResult) :
    (recordTiming st r).latestId = st.latestId ∧
    (recordTiming st r).abortedIds = st.abortedIds := by
  unfold recordTiming
  repeat' split
  all_goals exact ⟨rfl, rfl⟩

theorem applyFinal_latestId (st : OrchState) (hu rf : Bool) (r : SolvabilityResult) :
    (applyFinal st hu rf r).latestId = st.latestId ∧
    (applyFinal st hu rf r).abortedIds = st.abortedIds := by
  unfold applyFinal
  repeat' split
  all_goals exact ⟨rfl, rfl⟩

/-- A response whose request id is no longer the latest is discarded
entirely: it does not touch any component of the orchestrator state. -/
theorem handleResponse_stale (st : OrchState) (rid : Nat) (hu rf : Bool)
    (r : SolvabilityResult) (h : rid ≠ st.latestId) :
    handleResponse st rid hu rf r = st := by
  unfold handleResponse
  dsimp only
  by_cases h1 : rid ∈ st.abortedIds
  · rw [if_pos h1, if_neg h]
  · rw [if_neg h1, if_pos h, if_neg h]

theorem handleResponse_latestId (st : OrchState) (rid : Nat) (hu rf : Bool)
    (r : SolvabilityResult) :
    (handleResponse st rid hu rf r).latestId = st.latestId ∧
    (handleResponse st rid hu rf r).abortedIds = st.abortedIds := by
  unfold handleResponse
  dsimp only
  by_cases h1 : rid ∈ st.abortedIds
  · rw [if_pos h1]
    split <;> exact ⟨rfl, rfl⟩
  · rw [if_neg h1]
    by_cases h2 : rid ≠ st.latestId
    · rw [if_pos h2]
      split <;> exact ⟨rfl, rfl⟩
    · rw [if_neg h2]
      have ha := applyFinal_latestId (recordTiming st r) hu rf r
      have hb := recordTiming_latestId st r
      split <;> exact ⟨by rw [ha.1, hb.1], by rw [ha.2, hb.2]⟩

/-- A response that is stale (its id is superseded) or whose abort signal has
fired leaves the request bookkeeping, the solvability status and every cache
unchanged (at most the `isChecking` spinner flag is cleared). -/
theorem handleResponse_stale_cache (st : OrchState) (rid : Nat) (hu rf : Bool)
    (r : SolvabilityResult) (h : rid ≠ st.latestId ∨ rid ∈ st.abortedIds) :
    (handleResponse st rid hu rf r).latestId = st.latestId ∧
    (handleResponse st rid hu rf r).abortedIds = st.abortedIds ∧
    (handleResponse st rid hu rf r).status = st.status ∧
    (handleResponse st rid hu rf r).cachedHint = st.cachedHint ∧
    (handleResponse st rid hu rf r).cachedSolution = st.cachedSolution ∧
    (handleResponse st rid hu rf r).cachedTooLong = st.cachedTooLong ∧
    (handleResponse st rid hu rf r).solution = st.solution ∧
    (handleResponse st rid hu rf r).timings = st.timings := by
  by_cases h1 : rid ∈ st.abortedIds
  · unfold handleResponse
    dsimp only
    rw [if_pos h1]
    split <;> exact ⟨rfl, rfl, rfl, rfl, rfl, rfl, rfl, rfl⟩
  · have h2 : rid ≠ st.latestId := h.resolve_right h1
    rw [handleResponse_stale st rid hu rf r h2]
    exact ⟨rfl, rfl, rfl, rfl, rfl, rfl, rfl, rfl⟩

/-- Folding any sequence of stale/aborted response events over a state
preserves the status and all caches. -/
theorem handleEvents_stale_cache (st : OrchState) (evs : List RespEvent)
    (h : ∀ e ∈ evs, e.rid ≠ st.latestId ∨ e.rid ∈ st.abortedIds) :
    (handleEvents st evs).status = st.status ∧
    (handleEvents st evs).cachedHint = st.cachedHint ∧
    (handleEvents st evs).cachedSolution = st.cachedSolution ∧
    (handleEvents st evs).cachedTooLong = st.cachedTooLong ∧
    (handleEvents st evs).solution = st.solution := by
  induction evs generalizing st with
  | nil => exact ⟨rfl, rfl, rfl, rfl, rfl⟩
  | cons e evs ih =>
    have he := h e (List.mem_cons_self e evs)
    have hstep := handleResponse_stale_cache st e.rid e.hasUndo e.refreshSolution e.result he
    have hrest := ih (handleResponse st e.rid e.hasUndo e.refreshSolution e.result)
      (fun e' he' => by
        rw [hstep.1, hstep.2.1]
        exact h e' (List.mem_cons_of_mem e he'))
    have hcons : handleEvents st (e :: evs)
        = handleEvents (handleResponse st e.rid e.hasUndo e.refreshSolution e.result) evs := rfl
    rw [hcons, hrest.1, hrest.2.1, hrest.2.2.1, hrest.2.2.2.1, hrest.2.2.2.2,
      hstep.2.2.1, hstep.2.2.2.1, hstep.2.2.2.2.1, hstep.2.2.2.2.2.1, hstep.2.2.2.2.2.2.1]
    exact ⟨rfl, rfl, rfl, rfl, rfl⟩

/-! ### Claim theorems about the orchestrator -/

/-- **C4**: if query `B` is issued while query `A` is pending, `A`'s id is no
longer the latest and its abort signal has fired, so `A`'s eventual response
is never applied — whether it arrives before or after `B`'s — and in general
a response is a complete no-op whenever its request id differs from the
latest issued id. -/
theorem C4_stale_response_discarded (st0 : OrchState)
    (huA rfA huB rfB : Bool) (rA rB : SolvabilityResult) :
    (∀ (st : OrchState) (rid : Nat) (hu rf : Bool) (r : SolvabilityResult),
        rid ≠ st.latestId → handleResponse st rid hu rf r = st) ∧
    (issueQuery st0).2 ∈ (issueQuery (issueQuery st0).1).1.abortedIds ∧
    handleResponse (issueQuery (issueQuery st0).1).1 (issueQuery st0).2 huA rfA rA
      = (issueQuery (issueQuery st0).1).1 ∧
    handleResponse
        (handleResponse (issueQuery (issueQuery st0).1).1
          (issueQuery (issueQuery st0).1).2 huB rfB rB)
        (issueQuery st0).2 huA rfA rA
      = handleResponse (issueQuery (issueQuery st0).1).1
          (issueQuery (issueQuery st0).1).2 huB rfB rB := by
  refine ⟨fun st rid hu rf r h => handleResponse_stale st rid hu rf r h, ?_, ?_, ?_⟩
  · have hab : (issueQuery (issueQuery st0).1).1.abortedIds
        = (issueQuery st0).2 :: (issueQuery st0).1.abortedIds := rfl
    rw [hab]
    exact List.mem_cons_self _ _
  · refine handleResponse_stale _ _ _ _ _ ?_
    show st0.latestId + 1 ≠ st0.latestId + 1 + 1
    omega
  · refine handleResponse_stale _ _ _ _ _ ?_
    rw [(handleResponse_latestId _ _ _ _ _).1]
    show st0.latestId + 1 ≠ st0.latestId + 1 + 1
    omega

/-- Witness for C4's universal no-op clause at a concrete state and id. -/
theorem C4_stale_response_discarded_witness :
    (42 ≠ orchDemo.latestId) ∧
    handleResponse orchDemo 42 true false resDemo = orchDemo :=
  ⟨by decide,
    (C4_stale_response_discarded orchDemo true false true false resDemo resDemo).1
      orchDemo 42 true false resDemo (by decide)⟩

/-- **C10**: the synchronous prefix of every solvability check resets the
cached hint message, the cached solution and the too-long flag and sets the
status to `'checking'`; consequently, as long as only stale or aborted
responses arrive (i.e. while the new query is still in flight), no plan or
hint cached from an earlier state ever becomes readable again. -/
theorem C10_issue_resets_caches (st0 : OrchState) (evs : List RespEvent)
    (hstale : ∀ e ∈ evs,
      e.rid ≠ (issueQuery st0).1.latestId ∨ e.rid ∈ (issueQuery st0).1.abortedIds) :
    ((issueQuery st0).1.cachedHint = none ∧
      (issueQuery st0).1.cachedSolution = none ∧
      (issueQuery st0).1.cachedTooLong = false ∧
      (issueQuery st0).1.status = some .checking ∧
      (issueQuery st0).1.isChecking = true) ∧
    ((handleEvents (issueQuery st0).1 evs).cachedHint = none ∧
      (handleEvents (issueQuery st0).1 evs).cachedSolution = none ∧
      (handleEvents (issueQuery st0).1 evs).cachedTooLong = false ∧
      (handleEvents (issueQuery st0).1 evs).status = some .checking) := by
  refine ⟨⟨rfl, rfl, rfl, rfl, rfl⟩, ?_⟩
  have h := handleEvents_stale_cache (issueQuery st0).1 evs hstale
  exact ⟨by rw [h.2.1]; rfl, by rw [h.2.2.1]; rfl, by rw [h.2.2.2.1]; rfl, by rw [h.1]; rfl⟩

/-- Witness for C10: issuing over a state with junk caches wipes them, and a
stale event for the previous request does not bring them back. -/
theorem C10_issue_resets_caches_witness :
    (∀ e ∈ [RespEvent.mk 7 true false resDemo],
      e.rid ≠ (issueQuery orchDemo).1.latestId ∨ e.rid ∈ (issueQuery orchDemo).1.abortedIds) ∧
    (handleEvents (issueQuery orchDemo).1 [RespEvent.mk 7 true false resDemo]).cachedSolution
      = none :=
  ⟨by decide,
    (C10_issue_resets_caches orchDemo [RespEvent.mk 7 true false resDemo] (by decide)).2.2.1⟩

/-! ### Lemmas about the latency estimator -/

theorem sortEntries_sample :
    sortEntries sampleTimings = [(25, (1000 : ℚ)), (50, 16000)] := by
  simp [sampleTimings, sortEntries, insertEntry]

theorem selectPair_sample (t : Nat) :
    selectPair (25, (1000 : ℚ)) (50, 16000) [] t = ((25, 1000), (50, 16000)) := by
  have hlast : ([((50 : Nat), (16000 : ℚ))].getLastD (50, 16000)) = (50, 16000) := rfl
  have hpen : (([((25 : Nat), (1000 : ℚ)), (50, 16000)].dropLast).getLastD (25, 1000))
      = (25, 1000) := rfl
  unfold selectPair selectGo
  dsimp only
  rw [hlast, hpen]
  dsimp only
  by_cases h1 : 25 ≤ t ∧ t ≤ 50
  · rw [if_pos h1]; rfl
  · rw [if_neg h1]
    by_cases h2 : t < 25
    · rw [if_pos h2]; rfl
    · rw [if_neg h2]
      by_cases h3 : 50 < t
      · rw [if_pos h3]; rfl
      · omega

theorem log_ratio_sample :
    Real.log (((16000 : ℚ) : ℝ) / ((1000 : ℚ) : ℝ)) /
      Real.log (((50 : Nat) : ℝ) / ((25 : Nat) : ℝ)) = 4 := by
  have h1 : ((16000 : ℚ) : ℝ) / ((1000 : ℚ) : ℝ) = 2 ^ (4 : ℕ) := by norm_num
  have h2 : ((50 : Nat) : ℝ) / ((25 : Nat) : ℝ) = 2 := by norm_num
  rw [h1, h2, Real.log_pow, mul_div_assoc,
    div_self (ne_of_gt (Real.log_pos one_lt_two)), mul_one]
  norm_num

theorem estC9_at_25 : estC9 25 = 1000 := by
  have h : ⌊(1000 : ℝ) / 25 ^ (4 : ℕ) * ((25 : Nat) : ℝ) ^ (4 : ℕ) + 1 / 2⌋ = (1000 : ℤ) := by
    rw [Int.floor_eq_iff]
    norm_num
  unfold estC9 jsRound
  rw [h]
  norm_num

theorem estC9_at_50 : estC9 50 = 16000 := by
  have h : ⌊(1000 : ℝ) / 25 ^ (4 : ℕ) * ((50 : Nat) : ℝ) ^ (4 : ℕ) + 1 / 2⌋ = (16000 : ℤ) := by
    rw [Int.floor_eq_iff]
    norm_num
  unfold estC9 jsRound
  rw [h]
  norm_num

theorem estC9_at_35 : estC9 35 = 3842 := by
  have h : ⌊(1000 : ℝ) / 25 ^ (4 : ℕ) * ((35 : Nat) : ℝ) ^ (4 : ℕ) + 1 / 2⌋ = (3842 : ℤ) := by
    rw [Int.floor_eq_iff]
    norm_num
  unfold estC9 jsRound
  rw [h]
  norm_num

theorem estC9_mono {a b : Nat} (h : a ≤ b) : estC9 a ≤ estC9 b := by
  unfold estC9 jsRound
  have hbase : (1000 : ℝ) / 25 ^ (4 : ℕ) * (a : ℝ) ^ (4 : ℕ)
      ≤ (1000 : ℝ) / 25 ^ (4 : ℕ) * (b : ℝ) ^ (4 : ℕ) := by
    apply mul_le_mul_of_nonneg_left _ (by positivity)
    exact pow_le_pow_left₀ (by positivity) (by exact_mod_cast h) 4
  exact Int.cast_le.mpr (Int.floor_le_floor (add_le_add_right hbase (1 / 2)))

/-- On the claim's sample table, `estimateMsForSteps` agrees everywhere with
the closed-form quartic power law `estC9` (the log-log slope through the two
samples is exactly `4`, and the direct-sample branches agree with the law). -/
theorem estimate_sample_eq (t : Nat) :
    estimateMsForSteps sampleTimings t = estC9 t := by
  by_cases h25 : t = 25
  · subst h25
    rw [show estimateMsForSteps sampleTimings 25 = ((1000 : ℚ) : ℝ) from rfl, estC9_at_25]
    norm_num
  · by_cases h50 : t = 50
    · subst h50
      rw [show estimateMsForSteps sampleTimings 50 = ((16000 : ℚ) : ℝ) from rfl, estC9_at_50]
      norm_num
    · have hlook : lookupSteps sampleTimings t = none := by
        have e1 : (25 : Nat) ≠ t := fun h => h25 h.symm
        have e2 : (50 : Nat) ≠ t := fun h => h50 h.symm
        simp [sampleTimings, lookupSteps, e1, e2]
      unfold estimateMsForSteps
      rw [hlook]
      dsimp only
      rw [sortEntries_sample]
      dsimp only
      rw [selectPair_sample]
      dsimp only
      rw [log_ratio_sample, show (4 : ℝ) = ((4 : ℕ) : ℝ) by norm_num,
        Real.rpow_natCast, Real.rpow_natCast]
      unfold estC9
      norm_num

/-- **C9**: with the timing table `{25: 1000 ms, 50: 16000 ms}`, the exact
samples are returned directly, `estimate(35)` lies strictly between 1000 and
16000, and the estimate is monotone (non-decreasing) in the queried
horizon. -/
theorem C9_estimator_between_and_mono (a b : Nat) (hab : a ≤ b) :
    estimateMsForSteps sampleTimings 25 = 1000 ∧
    estimateMsForSteps sampleTimings 50 = 16000 ∧
    1000 < estimateMsForSteps sampleTimings 35 ∧
    estimateMsForSteps sampleTimings 35 < 16000 ∧
    estimateMsForSteps sampleTimings a ≤ estimateMsForSteps sampleTimings b := by
  rw [estimate_sample_eq 25, estimate_sample_eq 50, estimate_sample_eq 35,
    estimate_sample_eq a, estimate_sample_eq b, estC9_at_25, estC9_at_50, estC9_at_35]
  exact ⟨rfl, rfl, by norm_num, by norm_num, estC9_mono hab⟩

/-- Witness for C9 at the concrete pair of horizons `30 ≤ 40`. -/
theorem C9_estimator_between_and_mono_witness :
    (30 ≤ 40) ∧
    estimateMsForSteps sampleTimings 30 ≤ estimateMsForSteps sampleTimings 40 :=
  ⟨by norm_num, (C9_estimator_between_and_mono 30 40 (by norm_num)).2.2.2.2⟩

/-! ### Lemmas about the flood fill -/

theorem mem_blankFinset (rows : List (List Char)) (w h : Nat) (p : Int × Int) :
    p ∈ blankFinset rows w h ↔ BlankAt rows w h p := by
  unfold blankFinset BlankAt
  simp only [Finset.mem_image, Finset.mem_filter, Finset.mem_product, Finset.mem_range]
  constructor
  · rintro ⟨⟨a, b⟩, ⟨⟨ha, hb⟩, hraw⟩, rfl⟩
    dsimp only
    refine ⟨Int.ofNat_nonneg a, by exact_mod_cast ha, Int.ofNat_nonneg b,
      by exact_mod_cast hb, ?_⟩
    simpa using hraw
  · rintro ⟨h1, h2, h3, h4, h5⟩
    refine ⟨(p.1.toNat, p.2.toNat), ⟨⟨by omega, by omega⟩, h5⟩, ?_⟩
    have e1 : ((p.1.toNat : Int)) = p.1 := Int.toNat_of_nonneg h1
    have e2 : ((p.2.toNat : Int)) = p.2 := Int.toNat_of_nonneg h3
    rw [Prod.ext_iff]
    exact ⟨e1, e2⟩

/-- Case analysis of `enqueueIfVoidSpace`: either it is the identity (and if
the cell was an in-bounds blank, it was already marked), or the cell is a
fresh in-bounds blank that gets marked and queued. -/
theorem enq_cases (rows : List (List Char)) (w h : Nat)
    (st : Finset (Int × Int) × List (Int × Int)) (x y : Int) :
    (enqueueIfVoidSpace rows w h st x y = st ∧
      (BlankAt rows w h (x, y) → (x, y) ∈ st.1)) ∨
    ((x, y) ∉ st.1 ∧ BlankAt rows w h (x, y) ∧
      enqueueIfVoidSpace rows w h st x y = (insert (x, y) st.1, st.2 ++ [(x, y)])) := by
  unfold enqueueIfVoidSpace
  split
  · next hb =>
    refine Or.inl ⟨rfl, fun hblank => ?_⟩
    obtain ⟨a1, a2, a3, a4, _⟩ := hblank
    dsimp only at a1 a2 a3 a4
    omega
  · next hb =>
    split
    · next hmem => exact Or.inl ⟨rfl, fun _ => hmem⟩
    · next hmem =>
      split
      · next hraw =>
        refine Or.inl ⟨rfl, fun hblank => ?_⟩
        obtain ⟨_, _, _, _, h5⟩ := hblank
        exact absurd h5 hraw
      · next hraw =>
        push_neg at hb
        refine Or.inr ⟨hmem, ⟨by omega, by omega, by omega, by omega, not_ne_iff.mp hraw⟩, rfl⟩

theorem enq_marks_mono (rows : List (List Char)) (w h : Nat)
    (st : Finset (Int × Int) × List (Int × Int)) (x y : Int) :
    st.1 ⊆ (enqueueIfVoidSpace rows w h st x y).1 := by
  rcases enq_cases rows w h st x y with ⟨heq, _⟩ | ⟨_, _, heq⟩
  · rw [heq]
  · rw [heq]
    exact Finset.subset_insert _ _

theorem enq_queue_mono (rows : List (List Char)) (w h : Nat)
    (st : Finset (Int × Int) × List (Int × Int)) (x y : Int) :
    ∀ p ∈ st.2, p ∈ (enqueueIfVoidSpace rows w h st x y).2 := by
  rcases enq_cases rows w h st x y with ⟨heq, _⟩ | ⟨_, _, heq⟩
  · rw [heq]; exact fun p hp => hp
  · rw [heq]
    exact fun p hp => List.mem_append_left _ hp

theorem enq_marks_sub (rows : List (List Char)) (w h : Nat)
    (st : Finset (Int × Int) × List (Int × Int)) (x y : Int) :
    ∀ p ∈ (enqueueIfVoidSpace rows w h st x y).1,
      p ∈ st.1 ∨ (p = (x, y) ∧ BlankAt rows w h (x, y) ∧ (x, y) ∉ st.1) := by
  rcases enq_cases rows w h st x y with ⟨heq, _⟩ | ⟨hnm, hbl, heq⟩
  · rw [heq]; exact fun p hp => Or.inl hp
  · rw [heq]
    intro p hp
    rcases Finset.mem_insert.mp hp with hp | hp
    · exact Or.inr ⟨hp, hbl, hnm⟩
    · exact Or.inl hp

theorem enq_queue_sub (rows : List (List Char)) (w h : Nat)
    (st : Finset (Int × Int) × List (Int × Int)) (x y : Int) :
    ∀ p ∈ (enqueueIfVoidSpace rows w h st x y).2, p ∈ st.2 ∨ p = (x, y) := by
  rcases enq_cases rows w h st x y with ⟨heq, _⟩ | ⟨_, _, heq⟩
  · rw [heq]; exact fun p hp => Or.inl hp
  · rw [heq]
    intro p hp
    rcases List.mem_append.mp hp with hp | hp
    · exact Or.inl hp
    · exact Or.inr (List.mem_singleton.mp hp)

theorem enq_marks_or_queue (rows : List (List Char)) (w h : Nat)
    (st : Finset (Int × Int) × List (Int × Int)) (x y : Int) :
    ∀ p ∈ (enqueueIfVoidSpace rows w h st x y).1,
      p ∈ st.1 ∨ p ∈ (enqueueIfVoidSpace rows w h st x y).2 := by
  rcases enq_cases rows w h st x y with ⟨heq, _⟩ | ⟨_, _, heq⟩
  · rw [heq]; exact fun p hp => Or.inl hp
  · rw [heq]
    intro p hp
    rcases Finset.mem_insert.mp hp with hp | hp
    · exact Or.inr (by rw [hp]; exact List.mem_append_right _ (List.mem_singleton_self _))
    · exact Or.inl hp

theorem enq_mem_of_blank (rows : List (List Char)) (w h : Nat)
    (st : Finset (Int × Int) × List (Int × Int)) (x y : Int)
    (hb : BlankAt rows w h (x, y)) :
    (x, y) ∈ (enqueueIfVoidSpace rows w h st x y).1 := by
  rcases enq_cases rows w h st x y with ⟨heq, hin⟩ | ⟨_, _, heq⟩
  · rw [heq]; exact hin hb
  · rw [heq]
    exact Finset.mem_insert_self _ _

theorem enq_queue_mem (rows : List (List Char)) (w h : Nat)
    (st : Finset (Int × Int) × List (Int × Int)) (x y : Int)
    (hqm : ∀ p ∈ st.2, p ∈ st.1) :
    ∀ p ∈ (enqueueIfVoidSpace rows w h st x y).2,
      p ∈ (enqueueIfVoidSpace rows w h st x y).1 := by
  intro p hp
  rcases enq_queue_sub rows w h st x y p hp with hp' | hp'
  · exact enq_marks_mono rows w h st x y (hqm p hp')
  · rcases enq_cases rows w h st x y with ⟨heq, _⟩ | ⟨_, _, heq⟩
    · rw [heq] at hp ⊢
      exact hqm p hp
    · rw [heq]
      rw [hp']
      exact Finset.mem_insert_self _ _

theorem enq_nodup (rows : List (List Char)) (w h : Nat)
    (st : Finset (Int × Int) × List (Int × Int)) (x y : Int)
    (hqm : ∀ p ∈ st.2, p ∈ st.1) (hnd : st.2.Nodup) :
    (enqueueIfVoidSpace rows w h st x y).2.Nodup := by
  rcases enq_cases rows w h st x y with ⟨heq, _⟩ | ⟨hnm, _, heq⟩
  · rw [heq]; exact hnd
  · rw [heq]
    refine List.Nodup.append hnd (List.nodup_singleton _) ?_
    intro p hp hp'
    rw [List.mem_singleton.mp hp'] at hp
    exact hnm (hqm _ hp)

theorem enq_sound (rows : List (List Char)) (w h : Nat)
    (st : Finset (Int × Int) × List (Int × Int)) (x y : Int)
    (hjust : BlankAt rows w h (x, y) → ExteriorBlank rows w h (x, y))
    (hs : ∀ p ∈ st.1, ExteriorBlank rows w h p) :
    ∀ p ∈ (enqueueIfVoidSpace rows w h st x y).1, ExteriorBlank rows w h p := by
  intro p hp
  rcases enq_marks_sub rows w h st x y p hp with hp' | ⟨rfl, hbl, _⟩
  · exact hs p hp'
  · exact hjust hbl

theorem enq_marks_blank (rows : List (List Char)) (w h : Nat)
    (st : Finset (Int × Int) × List (Int × Int)) (x y : Int)
    (hb : ∀ p ∈ st.1, BlankAt rows w h p) :
    ∀ p ∈ (enqueueIfVoidSpace rows w h st x y).1, BlankAt rows w h p := by
  intro p hp
  rcases enq_marks_sub rows w h st x y p hp with hp' | ⟨rfl, hbl, _⟩
  · exact hb p hp'
  · exact hbl

theorem enq_measure (rows : List (List Char)) (w h : Nat)
    (st : Finset (Int × Int) × List (Int × Int)) (x y : Int) :
    floodMeasure rows w h (enqueueIfVoidSpace rows w h st x y)
      ≤ floodMeasure rows w h st := by
  rcases enq_cases rows w h st x y with ⟨heq, _⟩ | ⟨hnm, hbl, heq⟩
  · rw [heq]
  · rw [heq]
    unfold floodMeasure
    dsimp only
    have hmem : (x, y) ∈ blankFinset rows w h \ st.1 :=
      Finset.mem_sdiff.mpr ⟨(mem_blankFinset rows w h _).mpr hbl, hnm⟩
    have hset : blankFinset rows w h \ insert (x, y) st.1
        = (blankFinset rows w h \ st.1).erase (x, y) := by
      ext a
      simp only [Finset.mem_sdiff, Finset.mem_insert, Finset.mem_erase]
      tauto
    rw [hset, Finset.card_erase_of_mem hmem, List.length_append, List.length_singleton]
    have hc : 1 ≤ (blankFinset rows w h \ st.1).card :=
      Finset.card_pos.mpr ⟨_, hmem⟩
    omega

/-- Core invariant lemma of the BFS loop: given enough fuel, the final mark
set contains the initial marks, contains only exterior blanks, and is closed
under blank steps. -/
theorem floodLoop_core (rows : List (List Char)) (w h : Nat) :
    ∀ (fuel : Nat) (marks : Finset (Int × Int)) (queue : List (Int × Int)),
      (∀ p ∈ marks, ExteriorBlank rows w h p) →
      (∀ p ∈ marks, BlankAt rows w h p) →
      (∀ p ∈ queue, p ∈ marks) →
      queue.Nodup →
      (∀ p ∈ marks, p ∉ queue → ∀ q, BlankStep rows w h p q → q ∈ marks) →
      floodMeasure rows w h (marks, queue) < fuel →
      marks ⊆ floodLoop rows w h fuel (marks, queue) ∧
      (∀ p ∈ floodLoop rows w h fuel (marks, queue), ExteriorBlank rows w h p) ∧
      (∀ p ∈ floodLoop rows w h fuel (marks, queue), ∀ q,
        BlankStep rows w h p q → q ∈ floodLoop rows w h fuel (marks, queue)) := by
  intro fuel
  induction fuel with
  | zero =>
    intro marks queue _ _ _ _ _ hm
    exact absurd hm (by omega)
  | succ fuel ih =>
    intro marks queue hsound hblank hqm hnd hcl hm
    cases queue with
    | nil =>
      rw [show floodLoop rows w h (fuel + 1) (marks, []) = marks from rfl]
      exact ⟨Finset.Subset.refl _, hsound, fun p hp q hq => hcl p hp (by simp) q hq⟩
    | cons head rest =>
      obtain ⟨x, y⟩ := head
      have hqm' : ∀ p ∈ rest, p ∈ marks := fun p hp => hqm p (List.mem_cons_of_mem _ hp)
      have hnd' : rest.Nodup := (List.nodup_cons.mp hnd).2
      have hxy_nrest : (x, y) ∉ rest := (List.nodup_cons.mp hnd).1
      have hxy_mem : (x, y) ∈ marks := hqm _ (List.mem_cons_self _ _)
      have hxyE : ExteriorBlank rows w h (x, y) := hsound _ hxy_mem
      have hxyB : BlankAt rows w h (x, y) := hblank _ hxy_mem
      obtain ⟨b, hbb, hpath⟩ := hxyE
      have hj1 : BlankAt rows w h (x - 1, y) → ExteriorBlank rows w h (x - 1, y) :=
        fun hb => ⟨b, hbb, hpath.tail ⟨hxyB, hb, Or.inl ⟨rfl, rfl⟩⟩⟩
      have hj2 : BlankAt rows w h (x + 1, y) → ExteriorBlank rows w h (x + 1, y) :=
        fun hb => ⟨b, hbb, hpath.tail ⟨hxyB, hb, Or.inr (Or.inl ⟨rfl, rfl⟩)⟩⟩
      have hj3 : BlankAt rows w h (x, y - 1) → ExteriorBlank rows w h (x, y - 1) :=
        fun hb => ⟨b, hbb, hpath.tail ⟨hxyB, hb, Or.inr (Or.inr (Or.inl ⟨rfl, rfl⟩))⟩⟩
      have hj4 : BlankAt rows w h (x, y + 1) → ExteriorBlank rows w h (x, y + 1) :=
        fun hb => ⟨b, hbb, hpath.tail ⟨hxyB, hb, Or.inr (Or.inr (Or.inr ⟨rfl, rfl⟩))⟩⟩
      -- stage 1
      have hs1 := enq_sound rows w h (marks, rest) (x - 1) y hj1 hsound
      have hb1 := enq_marks_blank rows w h (marks, rest) (x - 1) y hblank
      have hq1 := enq_queue_mem rows w h (marks, rest) (x - 1) y hqm'
      have hn1 := enq_nodup rows w h (marks, rest) (x - 1) y hqm' hnd'
      -- stage 2
      have hs2 := enq_sound rows w h _ (x + 1) y hj2 hs1
      have hb2 := enq_marks_blank rows w h _ (x + 1) y hb1
      have hq2 := enq_queue_mem rows w h _ (x + 1) y hq1
      have hn2 := enq_nodup rows w h _ (x + 1) y hq1 hn1
      -- stage 3
      have hs3 := enq_sound rows w h _ x (y - 1) hj3 hs2
      have hb3 := enq_marks_blank rows w h _ x (y - 1) hb2
      have hq3 := enq_queue_mem rows w h _ x (y - 1) hq2
      have hn3 := enq_nodup rows w h _ x (y - 1) hq2 hn2
      -- stage 4
      have hs4 := enq_sound rows w h _ x (y + 1) hj4 hs3
      have hb4 := enq_marks_blank rows w h _ x (y + 1) hb3
      have hq4 := enq_queue_mem rows w h _ x (y + 1) hq3
      have hn4 := enq_nodup rows w h _ x (y + 1) hq3 hn3
      -- mark monotonicity across the four stages
      have hm1 := enq_marks_mono rows w h (marks, rest) (x - 1) y
      have hm2 := enq_marks_mono rows w h
        (enqueueIfVoidSpace rows w h (marks, rest) (x - 1) y) (x + 1) y
      have hm3 := enq_marks_mono rows w h
        (enqueueIfVoidSpace rows w h
          (enqueueIfVoidSpace rows w h (marks, rest) (x - 1) y) (x + 1) y) x (y - 1)
      have hm4 := enq_marks_mono rows w h
        (enqueueIfVoidSpace rows w h
          (enqueueIfVoidSpace rows w h
            (enqueueIfVoidSpace rows w h (marks, rest) (x - 1) y) (x + 1) y)
          x (y - 1)) x (y + 1)
      -- queue monotonicity across the four stages
      have hu1 := enq_queue_mono rows w h (marks, rest) (x - 1) y
      have hu2 := enq_queue_mono rows w h
        (enqueueIfVoidSpace rows w h (marks, rest) (x - 1) y) (x + 1) y
      have hu3 := enq_queue_mono rows w h
        (enqueueIfVoidSpace rows w h
          (enqueueIfVoidSpace rows w h (marks, rest) (x - 1) y) (x + 1) y) x (y - 1)
      have hu4 := enq_queue_mono rows w h
        (enqueueIfVoidSpace rows w h
          (enqueueIfVoidSpace rows w h
            (enqueueIfVoidSpace rows w h (marks, rest) (x - 1) y) (x + 1) y)
          x (y - 1)) x (y + 1)
      -- measure decrease
      have hmeas : floodMeasure rows w h
          (enqueueIfVoidSpace rows w h
            (enqueueIfVoidSpace rows w h
              (enqueueIfVoidSpace rows w h
                (enqueueIfVoidSpace rows w h (marks, rest) (x - 1) y)
                (x + 1) y) x (y - 1)) x (y + 1)) < fuel := by
        have e1 := enq_measure rows w h (marks, rest) (x - 1) y
        have e2 := enq_measure rows w h
          (enqueueIfVoidSpace rows w h (marks, rest) (x - 1) y) (x + 1) y
        have e3 := enq_measure rows w h
          (enqueueIfVoidSpace rows w h
            (enqueueIfVoidSpace rows w h (marks, rest) (x - 1) y) (x + 1) y) x (y - 1)
        have e4 := enq_measure rows w h
          (enqueueIfVoidSpace rows w h
            (enqueueIfVoidSpace rows w h
              (enqueueIfVoidSpace rows w h (marks, rest) (x - 1) y)
              (x + 1) y) x (y - 1)) x (y + 1)
        have estep : floodMeasure rows w h (marks, rest) + 1
            = floodMeasure rows w h (marks, (x, y) :: rest) := by
          unfold floodMeasure
          dsimp only [List.length_cons]
          omega
        omega
      -- the popped cell's blank neighbours are marked after the four stages
      have hnb1 : BlankAt rows w h (x - 1, y) →
          (x - 1, y) ∈ (enqueueIfVoidSpace rows w h
            (enqueueIfVoidSpace rows w h
              (enqueueIfVoidSpace rows w h
                (enqueueIfVoidSpace rows w h (marks, rest) (x - 1) y)
                (x + 1) y) x (y - 1)) x (y + 1)).1 :=
        fun hb => hm4 (hm3 (hm2 (enq_mem_of_blank rows w h (marks, rest) _ _ hb)))
      have hnb2 : BlankAt rows w h (x + 1, y) →
          (x + 1, y) ∈ (enqueueIfVoidSpace rows w h
            (enqueueIfVoidSpace rows w h
              (enqueueIfVoidSpace rows w h
                (enqueueIfVoidSpace rows w h (marks, rest) (x - 1) y)
                (x + 1) y) x (y - 1)) x (y + 1)).1 :=
        fun hb => hm4 (hm3 (enq_mem_of_blank rows w h
          (enqueueIfVoidSpace rows w h (marks, rest) (x - 1) y) (x + 1) y hb))
      have hnb3 : BlankAt rows w h (x, y - 1) →
          (x, y - 1) ∈ (enqueueIfVoidSpace rows w h
            (enqueueIfVoidSpace rows w h
              (enqueueIfVoidSpace rows w h
                (enqueueIfVoidSpace rows w h (marks, rest) (x - 1) y)
                (x + 1) y) x (y - 1)) x (y + 1)).1 :=
        fun hb => hm4 (enq_mem_of_blank rows w h
          (enqueueIfVoidSpace rows w h
            (enqueueIfVoidSpace rows w h (marks, rest) (x - 1) y) (x + 1) y) x (y - 1) hb)
      have hnb4 : BlankAt rows w h (x, y + 1) →
          (x, y + 1) ∈ (enqueueIfVoidSpace rows w h
            (enqueueIfVoidSpace rows w h
              (enqueueIfVoidSpace rows w h
                (enqueueIfVoidSpace rows w h (marks, rest) (x - 1) y)
                (x + 1) y) x (y - 1)) x (y + 1)).1 :=
        fun hb => enq_mem_of_blank rows w h
          (enqueueIfVoidSpace rows w h
            (enqueueIfVoidSpace rows w h
              (enqueueIfVoidSpace rows w h (marks, rest) (x - 1) y) (x + 1) y)
            x (y - 1)) x (y + 1) hb
      -- closure at stage 4
      have hcl4 : ∀ p ∈ (enqueueIfVoidSpace rows w h
            (enqueueIfVoidSpace rows w h
              (enqueueIfVoidSpace rows w h
                (enqueueIfVoidSpace rows w h (marks, rest) (x - 1) y)
                (x + 1) y) x (y - 1)) x (y + 1)).1,
          p ∉ (enqueueIfVoidSpace rows w h
            (enqueueIfVoidSpace rows w h
              (enqueueIfVoidSpace rows w h
                (enqueueIfVoidSpace rows w h (marks, rest) (x - 1) y)
                (x + 1) y) x (y - 1)) x (y + 1)).2 →
          ∀ q, BlankStep rows w h p q →
            q ∈ (enqueueIfVoidSpace rows w h
              (enqueueIfVoidSpace rows w h
                (enqueueIfVoidSpace rows w h
                  (enqueueIfVoidSpace rows w h (marks, rest) (x - 1) y)
                  (x + 1) y) x (y - 1)) x (y + 1)).1 := by
        intro p hp hpq q hq
        have hsub : p ∈ marks ∨ p ∈ (enqueueIfVoidSpace rows w h
            (enqueueIfVoidSpace rows w h
              (enqueueIfVoidSpace rows w h
                (enqueueIfVoidSpace rows w h (marks, rest) (x - 1) y)
                (x + 1) y) x (y - 1)) x (y + 1)).2 := by
          rcases enq_marks_or_queue rows w h _ x (y + 1) p hp with h4 | h4
          · rcases enq_marks_or_queue rows w h _ x (y - 1) p h4 with h3 | h3
            · rcases enq_marks_or_queue rows w h _ (x + 1) y p h3 with h2 | h2
              · rcases enq_marks_or_queue rows w h (marks, rest) (x - 1) y p h2 with h1 | h1
                · exact Or.inl h1
                · exact Or.inr (hu4 _ (hu3 _ (hu2 _ h1)))
              · exact Or.inr (hu4 _ (hu3 _ h2))
            · exact Or.inr (hu4 _ h3)
          · exact Or.inr h4
        rcases hsub with hpm | hq4'
        · by_cases hxyp : p = (x, y)
          · subst hxyp
            rcases hq.2.2 with ⟨h1, h2⟩ | ⟨h1, h2⟩ | ⟨h1, h2⟩ | ⟨h1, h2⟩
            · have hqe : q = (x - 1, y) := Prod.ext_iff.mpr ⟨h1, h2⟩
              rw [hqe]
              exact hnb1 (hqe ▸ hq.2.1)
            · have hqe : q = (x + 1, y) := Prod.ext_iff.mpr ⟨h1, h2⟩
              rw [hqe]
              exact hnb2 (hqe ▸ hq.2.1)
            · have hqe : q = (x, y - 1) := Prod.ext_iff.mpr ⟨h1, h2⟩
              rw [hqe]
              exact hnb3 (hqe ▸ hq.2.1)
            · have hqe : q = (x, y + 1) := Prod.ext_iff.mpr ⟨h1, h2⟩
              rw [hqe]
              exact hnb4 (hqe ▸ hq.2.1)
          · have hnr : p ∉ rest := fun hr => hpq (hu4 _ (hu3 _ (hu2 _ (hu1 _ hr))))
            have hnc : p ∉ (x, y) :: rest := by
              intro hc
              rcases List.mem_cons.mp hc with hc | hc
              · exact hxyp hc
              · exact hnr hc
            exact hm4 (hm3 (hm2 (hm1 (hcl p hpm hnc q hq))))
        · exact absurd hq4' hpq
      have hres := ih _ _ hs4 hb4 hq4 hn4 hcl4 hmeas
      have hstep : floodLoop rows w h (fuel + 1) (marks, (x, y) :: rest)
          = floodLoop rows w h fuel
            (enqueueIfVoidSpace rows w h
              (enqueueIfVoidSpace rows w h
                (enqueueIfVoidSpace rows w h
                  (enqueueIfVoidSpace rows w h (marks, rest) (x - 1) y)
                  (x + 1) y) x (y - 1)) x (y + 1)) := rfl
      rw [hstep]
      rw [Prod.mk.eta] at hres
      exact ⟨fun p hp => hres.1 (hm4 (hm3 (hm2 (hm1 hp)))), hres.2.1, hres.2.2⟩

/-- `enqueueIfVoidSpace` preserves the flood-fill invariant, provided the
enqueued cell would be a legitimate exterior blank. -/
theorem enq_floodInvariant (rows : List (List Char)) (w h : Nat)
    (st : Finset (Int × Int) × List (Int × Int)) (x y : Int)
    (hjust : BlankAt rows w h (x, y) → ExteriorBlank rows w h (x, y))
    (hinv : FloodInvariant rows w h st) :
    FloodInvariant rows w h (enqueueIfVoidSpace rows w h st x y) := by
  obtain ⟨hs, hb, hq, hn, hc⟩ := hinv
  refine ⟨enq_sound rows w h st x y hjust hs, enq_marks_blank rows w h st x y hb,
    enq_queue_mem rows w h st x y hq, enq_nodup rows w h st x y hq hn, ?_⟩
  intro p hp hpq q hqstep
  rcases enq_marks_sub rows w h st x y p hp with hpm | ⟨rfl, hbl, hnm⟩
  · have hnq : p ∉ st.2 := fun hr => hpq (enq_queue_mono rows w h st x y p hr)
    exact enq_marks_mono rows w h st x y (hc p hpm hnq q hqstep)
  · exfalso
    apply hpq
    rcases enq_cases rows w h st x y with ⟨_, hin⟩ | ⟨_, _, heq⟩
    · exact absurd (hin hbl) hnm
    · rw [heq]
      exact List.mem_append_right _ (List.mem_singleton_self _)

theorem foldl_preserve {α : Type}
    (f : Finset (Int × Int) × List (Int × Int) → α →
      Finset (Int × Int) × List (Int × Int))
    (P : Finset (Int × Int) × List (Int × Int) → Prop)
    (hf : ∀ st a, P st → P (f st a)) :
    ∀ (l : List α) (st), P st → P (List.foldl f st l) := by
  intro l
  induction l with
  | nil => exact fun st hp => hp
  | cons a l ih => exact fun st hp => ih _ (hf st a hp)

theorem foldl_marks_mono {α : Type}
    (f : Finset (Int × Int) × List (Int × Int) → α →
      Finset (Int × Int) × List (Int × Int))
    (hf : ∀ st a, st.1 ⊆ (f st a).1) :
    ∀ (l : List α) (st), st.1 ⊆ (List.foldl f st l).1 := by
  intro l
  induction l with
  | nil => exact fun st => Finset.Subset.refl _
  | cons a l ih => exact fun st => (hf st a).trans (ih _)

theorem foldl_mem_hit {α : Type}
    (f : Finset (Int × Int) × List (Int × Int) → α →
      Finset (Int × Int) × List (Int × Int))
    (hf : ∀ st a, st.1 ⊆ (f st a).1) (pcell : Int × Int) (a₀ : α)
    (hhit : ∀ st, pcell ∈ (f st a₀).1) :
    ∀ (l : List α), a₀ ∈ l → ∀ st, pcell ∈ (List.foldl f st l).1 := by
  intro l
  induction l with
  | nil => intro hmem; exact absurd hmem (List.not_mem_nil _)
  | cons a l ih =>
    intro hmem st
    rcases List.mem_cons.mp hmem with rfl | hmem'
    · exact foldl_marks_mono f hf l _ (hhit st)
    · exact ih hmem' _

theorem floodSeed_invariant (rows : List (List Char)) (w h : Nat) :
    FloodInvariant rows w h (floodSeed rows w h) := by
  unfold floodSeed
  have hinit : FloodInvariant rows w h ((∅ : Finset (Int × Int)), []) :=
    ⟨fun p hp => absurd hp (Finset.not_mem_empty p),
      fun p hp => absurd hp (Finset.not_mem_empty p),
      fun p hp => absurd hp (List.not_mem_nil p),
      List.nodup_nil,
      fun p hp => absurd hp (Finset.not_mem_empty p)⟩
  have hstep1 : ∀ st (a : Nat), FloodInvariant rows w h st →
      FloodInvariant rows w h
        (enqueueIfVoidSpace rows w h
          (enqueueIfVoidSpace rows w h st (a : Int) 0) (a : Int) ((h : Int) - 1)) := by
    intro st a hinv
    refine enq_floodInvariant rows w h _ _ _
      (fun hb => ⟨((a : Int), (h : Int) - 1), ⟨hb, Or.inr (Or.inr (Or.inr rfl))⟩,
        Relation.ReflTransGen.refl⟩)
      (enq_floodInvariant rows w h st _ _
        (fun hb => ⟨((a : Int), 0), ⟨hb, Or.inr (Or.inr (Or.inl rfl))⟩,
          Relation.ReflTransGen.refl⟩) hinv)
  have hstep2 : ∀ st (a : Nat), FloodInvariant rows w h st →
      FloodInvariant rows w h
        (enqueueIfVoidSpace rows w h
          (enqueueIfVoidSpace rows w h st 0 (a : Int)) ((w : Int) - 1) (a : Int)) := by
    intro st a hinv
    refine enq_floodInvariant rows w h _ _ _
      (fun hb => ⟨((w : Int) - 1, (a : Int)), ⟨hb, Or.inr (Or.inl rfl)⟩,
        Relation.ReflTransGen.refl⟩)
      (enq_floodInvariant rows w h st _ _
        (fun hb => ⟨(0, (a : Int)), ⟨hb, Or.inl rfl⟩,
          Relation.ReflTransGen.refl⟩) hinv)
  exact foldl_preserve _ _ hstep2 _ _ (foldl_preserve _ _ hstep1 _ _ hinit)

/-- Every blank cell on the outer boundary is marked by the seeding phase. -/
theorem floodSeed_boundary (rows : List (List Char)) (w h : Nat) (p : Int × Int)
    (hb : BoundaryBlank rows w h p) :
    p ∈ (floodSeed rows w h).1 := by
  obtain ⟨hblank, hside⟩ := hb
  obtain ⟨hx0, hxw, hy0, hyh, hraw⟩ := id hblank
  have hmono1 : ∀ (st : Finset (Int × Int) × List (Int × Int)) (a : Nat),
      st.1 ⊆ ((fun st (a : Nat) => enqueueIfVoidSpace rows w h
        (enqueueIfVoidSpace rows w h st (a : Int) 0) (a : Int) ((h : Int) - 1)) st a).1 :=
    fun st a => (enq_marks_mono rows w h st _ _).trans (enq_marks_mono rows w h _ _ _)
  have hmono2 : ∀ (st : Finset (Int × Int) × List (Int × Int)) (a : Nat),
      st.1 ⊆ ((fun st (a : Nat) => enqueueIfVoidSpace rows w h
        (enqueueIfVoidSpace rows w h st 0 (a : Int)) ((w : Int) - 1) (a : Int)) st a).1 :=
    fun st a => (enq_marks_mono rows w h st _ _).trans (enq_marks_mono rows w h _ _ _)
  unfold floodSeed
  rcases hside with hL | hR | hT | hB
  · -- left column: handled by the second fold with a₀ = p.2.toNat
    refine foldl_mem_hit _ hmono2 p p.2.toNat ?_ _ ?_ _
    · intro st
      have hcell : ((p.2.toNat : Int)) = p.2 := Int.toNat_of_nonneg hy0
      have hpeq : ((0 : Int), ((p.2.toNat : Nat) : Int)) = p := by
        rw [Prod.ext_iff]
        exact ⟨hL.symm, hcell⟩
      refine enq_marks_mono rows w h _ _ _ ?_
      rw [← hpeq] at hblank ⊢
      exact enq_mem_of_blank rows w h st _ _ hblank
    · exact List.mem_range.mpr (by omega)
  · -- right column
    refine foldl_mem_hit _ hmono2 p p.2.toNat ?_ _ ?_ _
    · intro st
      have hcell : ((p.2.toNat : Int)) = p.2 := Int.toNat_of_nonneg hy0
      have hpeq : (((w : Int) - 1), ((p.2.toNat : Nat) : Int)) = p := by
        rw [Prod.ext_iff]
        exact ⟨hR.symm, hcell⟩
      rw [← hpeq] at hblank ⊢
      exact enq_mem_of_blank rows w h _ _ _ hblank
    · exact List.mem_range.mpr (by omega)
  · -- top row: first fold, then monotonicity of the second fold
    refine foldl_marks_mono _ hmono2 _ _ ?_
    refine foldl_mem_hit _ hmono1 p p.1.toNat ?_ _ ?_ _
    · intro st
      have hcell : ((p.1.toNat : Int)) = p.1 := Int.toNat_of_nonneg hx0
      have hpeq : (((p.1.toNat : Nat) : Int), (0 : Int)) = p := by
        rw [Prod.ext_iff]
        exact ⟨hcell, hT.symm⟩
      refine enq_marks_mono rows w h _ _ _ ?_
      rw [← hpeq] at hblank ⊢
      exact enq_mem_of_blank rows w h st _ _ hblank
    · exact List.mem_range.mpr (by omega)
  · -- bottom row
    refine foldl_marks_mono _ hmono2 _ _ ?_
    refine foldl_mem_hit _ hmono1 p p.1.toNat ?_ _ ?_ _
    · intro st
      have hcell : ((p.1.toNat : Int)) = p.1 := Int.toNat_of_nonneg hx0
      have hpeq : (((p.1.toNat : Nat) : Int), ((h : Int) - 1)) = p := by
        rw [Prod.ext_iff]
        exact ⟨hcell, hB.symm⟩
      rw [← hpeq] at hblank ⊢
      exact enq_mem_of_blank rows w h _ _ _ hblank
    · exact List.mem_range.mpr (by omega)

/-- The fuel supplied by `floodFill` exceeds the seed state's measure. -/
theorem floodSeed_measure (rows : List (List Char)) (w h : Nat) :
    floodMeasure rows w h (floodSeed rows w h) < 6 * w * h + 1 := by
  obtain ⟨_, hb, hq, hn, _⟩ := floodSeed_invariant rows w h
  have hmarks_sub : (floodSeed rows w h).1 ⊆ blankFinset rows w h := fun p hp =>
    (mem_blankFinset rows w h p).mpr (hb p hp)
  have hblank_card : (blankFinset rows w h).card ≤ w * h := by
    refine le_trans (Finset.card_image_le) (le_trans (Finset.card_filter_le _ _) ?_)
    rw [Finset.card_product, Finset.card_range, Finset.card_range]
  have hqlen : (floodSeed rows w h).2.length ≤ (floodSeed rows w h).1.card := by
    have hcard : (floodSeed rows w h).2.toFinset.card = (floodSeed rows w h).2.length :=
      List.toFinset_card_of_nodup hn
    rw [← hcard]
    exact Finset.card_le_card fun p hp => hq p (List.mem_toFinset.mp hp)
  have hmarks_card : (floodSeed rows w h).1.card ≤ w * h :=
    le_trans (Finset.card_le_card hmarks_sub) hblank_card
  have hsdiff : (blankFinset rows w h \ (floodSeed rows w h).1).card ≤ w * h :=
    le_trans (Finset.card_le_card (Finset.sdiff_subset)) hblank_card
  unfold floodMeasure
  have h6 : 6 * w * h = 6 * (w * h) := by ring
  omega

/-- The flood fill marks exactly the blank cells reachable from a boundary
blank through orthogonally adjacent blanks. -/
theorem floodFill_spec (rows : List (List Char)) (w h : Nat) (p : Int × Int) :
    p ∈ floodFill rows w h ↔ ExteriorBlank rows w h p := by
  obtain ⟨hs, hb, hq, hn, hc⟩ := floodSeed_invariant rows w h
  have hcore := floodLoop_core rows w h (6 * w * h + 1)
    (floodSeed rows w h).1 (floodSeed rows w h).2 hs hb hq hn hc
    (by rw [Prod.mk.eta]; exact floodSeed_measure rows w h)
  rw [Prod.mk.eta] at hcore
  constructor
  · exact fun hp => hcore.2.1 p hp
  · rintro ⟨b, hbb, hpath⟩
    have hbmem : b ∈ floodFill rows w h := hcore.1 (floodSeed_boundary rows w h b hbb)
    induction hpath with
    | refl => exact hbmem
    | tail _ hstep ih => exact hcore.2.2 _ ih _ hstep

/-! ### Lemmas about `parseLevel` -/

theorem exteriorBlank_blank (rows : List (List Char)) (w h : Nat) (p : Int × Int)
    (hext : ExteriorBlank rows w h p) : BlankAt rows w h p := by
  obtain ⟨b, hbb, hpath⟩ := hext
  induction hpath with
  | refl => exact hbb.1
  | tail _ hstep _ => exact hstep.2.1

theorem map_range_getD {α : Type} (f : Nat → α) (n i : Nat) (d : α) (h : i < n) :
    ((List.range n).map f).getD i d = f i := by
  rw [List.getD_eq_getElem?_getD, List.getElem?_map, List.getElem?_range h]
  rfl

theorem mem_rowMajorCoords (w h x y : Nat) :
    (x, y) ∈ rowMajorCoords w h ↔ x < w ∧ y < h := by
  unfold rowMajorCoords
  simp only [List.mem_flatMap, List.mem_map, List.mem_range, Prod.mk.injEq]
  constructor
  · rintro ⟨b, hb, a, ha, rfl, rfl⟩
    exact ⟨ha, hb⟩
  · rintro ⟨hx, hy⟩
    exact ⟨y, hy, x, hx, rfl, rfl⟩

theorem translateChar_eq_x (c : Char) (v : Bool) :
    translateChar c v = 'x' ↔ (c = ' ' ∧ v = true) := by
  unfold translateChar
  by_cases h1 : c = ' ' ∧ v = true
  · rw [if_pos (by exact ⟨h1.1, h1.2⟩)]
    simp [h1.1, h1.2]
  · rw [if_neg (by intro hc; exact h1 ⟨hc.1, hc.2⟩)]
    constructor
    · intro hx
      exfalso
      revert hx
      repeat' split
      all_goals intro hx
      all_goals exact absurd hx (by decide)
    · intro hc
      exact absurd hc h1

theorem rawAt_cases (g : List (List Char)) (x y : Nat) :
    rawAt g x y = ' ' ∨ ∃ r ∈ g, rawAt g x y ∈ r := by
  unfold rawAt
  by_cases hy : y < g.length
  · by_cases hx : x < (g.getD y []).length
    · refine Or.inr ⟨g.getD y [], ?_, ?_⟩
      · have hrow : g.getD y [] = g[y] := List.getD_eq_getElem g [] hy
        rw [hrow]
        exact List.getElem_mem hy
      · have hchar : (g.getD y []).getD x ' ' = (g.getD y [])[x] :=
          List.getD_eq_getElem (g.getD y []) ' ' hx
        rw [hchar]
        exact List.getElem_mem hx
    · left
      exact List.getD_eq_default (g.getD y []) ' ' (by omega)
  · left
    have hrow : g.getD y [] = [] := List.getD_eq_default g [] (by omega)
    rw [hrow]
    rfl

theorem foldl_player_id (g : List (List Char)) (L : List (Nat × Nat)) (p0 : Point)
    (h : ∀ c ∈ L, ¬(rawAt g c.1 c.2 = '@' ∨ rawAt g c.1 c.2 = '+')) :
    L.foldl (fun p c =>
      if rawAt g c.1 c.2 = '@' ∨ rawAt g c.1 c.2 = '+' then
        ⟨(c.1 : Int), (c.2 : Int)⟩
      else p) p0 = p0 := by
  induction L generalizing p0 with
  | nil => rfl
  | cons c L ih =>
    rw [List.foldl_cons, if_neg (h c (List.mem_cons_self _ _))]
    exact ih _ fun c' hc' => h c' (List.mem_cons_of_mem _ hc')

/-! ### Claim theorems about `parseLevel` -/

/-- Counterexample to **C6** as stated: on a level text with no player
symbol, `parseLevel` does not report any structural error — it succeeds,
parses the rest of the level normally, and silently defaults the player
position to `(0,0)`. -/
theorem C6_counterexample :
    (parseLevel ["###", "#.#", "###"]).initialPlayer = ⟨0, 0⟩ ∧
    (parseLevel ["###", "#.#", "###"]).initialBoxes = [] ∧
    (parseLevel ["###", "#.#", "###"]).goals = [⟨1, 1⟩] := by decide

/-- **C6 (amended)**: `parseLevel` is total and never reports an error: on
raw level text with no player symbol it still succeeds, with the player
defaulting to `(0,0)`; inputs with a player symbol likewise always succeed,
however degenerate. -/
theorem C6_no_player_defaults (rows : List String)
    (h : ∀ r ∈ rows, '@' ∉ r.toList ∧ '+' ∉ r.toList) :
    (parseLevel rows).initialPlayer = ⟨0, 0⟩ := by
  unfold parseLevel parseLevelChars
  dsimp only
  refine foldl_player_id _ _ _ ?_
  intro c _
  rcases rawAt_cases (rows.map String.toList) c.1 c.2 with hsp | ⟨r, hr, hmem⟩
  · rw [hsp]
    decide
  · obtain ⟨r0, hr0, rfl⟩ := List.mem_map.mp hr
    intro hcontra
    rcases hcontra with hc | hc
    · exact (h r0 hr0).1 (hc ▸ hmem)
    · exact (h r0 hr0).2 (hc ▸ hmem)

/-- Witness for C6 (amended) on the same player-less level. -/
theorem C6_no_player_defaults_witness :
    (∀ r ∈ ["###", "#.#", "###"], '@' ∉ r.toList ∧ '+' ∉ r.toList) ∧
    (parseLevel ["###", "#.#", "###"]).initialPlayer = ⟨0, 0⟩ :=
  ⟨by decide, C6_no_player_defaults ["###", "#.#", "###"] (by decide)⟩

/-- **C7**: `parseLevel` marks as `Void` (`'x'`) exactly the blank cells
reachable from a boundary blank through orthogonally adjacent blanks; a
blank not so reachable becomes `Floor` (`' '`); and a box-on-goal tile
(`'*'`) yields a box point equal to a goal point with the cell itself being
`Goal` (`'.'`). -/
theorem C7_flood_fill_void (rows : List String) (x y : Nat)
    (hx : x < gridWidth (rows.map String.toList))
    (hy : y < (rows.map String.toList).length) :
    ((((parseLevel rows).parsedGrid.getD y []).getD x ' ' = 'x') ↔
      ExteriorBlank (rows.map String.toList) (gridWidth (rows.map String.toList))
        (rows.map String.toList).length ((x : Int), (y : Int))) ∧
    ((rawAt (rows.map String.toList) x y = ' ' ∧
      ¬ExteriorBlank (rows.map String.toList) (gridWidth (rows.map String.toList))
        (rows.map String.toList).length ((x : Int), (y : Int))) →
      (((parseLevel rows).parsedGrid.getD y []).getD x ' ' = ' ')) ∧
    (rawAt (rows.map String.toList) x y = '*' →
      Point.mk (x : Int) (y : Int) ∈ (parseLevel rows).initialBoxes ∧
      Point.mk (x : Int) (y : Int) ∈ (parseLevel rows).goals ∧
      (((parseLevel rows).parsedGrid.getD y []).getD x ' ' = '.')) := by
  have hcell : ((parseLevel rows).parsedGrid.getD y []).getD x ' '
      = translateChar (rawAt (rows.map String.toList) x y)
        (decide (((x : Int), (y : Int)) ∈
          floodFill (rows.map String.toList) (gridWidth (rows.map String.toList))
            (rows.map String.toList).length)) := by
    unfold parseLevel parseLevelChars
    dsimp only
    rw [map_range_getD _ _ _ _ hy, map_range_getD _ _ _ _ hx]
  have hspec := floodFill_spec (rows.map String.toList)
    (gridWidth (rows.map String.toList)) (rows.map String.toList).length
    ((x : Int), (y : Int))
  refine ⟨?_, ?_, ?_⟩
  · rw [hcell, translateChar_eq_x]
    constructor
    · rintro ⟨_, hdec⟩
      exact hspec.mp (of_decide_eq_true hdec)
    · intro hext
      have hblank := exteriorBlank_blank _ _ _ _ hext
      refine ⟨?_, decide_eq_true (hspec.mpr hext)⟩
      have := hblank.2.2.2.2
      simpa using this
  · rintro ⟨hsp, hext⟩
    rw [hcell, hsp]
    have hdec : decide (((x : Int), (y : Int)) ∈
        floodFill (rows.map String.toList) (gridWidth (rows.map String.toList))
          (rows.map String.toList).length) = false :=
      decide_eq_false fun hmem => hext (hspec.mp hmem)
    rw [hdec]
    decide
  · intro hstar
    refine ⟨?_, ?_, ?_⟩
    · unfold parseLevel parseLevelChars
      dsimp only
      refine List.mem_filterMap.mpr ⟨(x, y), ?_, ?_⟩
      · exact (mem_rowMajorCoords _ _ _ _).mpr ⟨hx, hy⟩
      · rw [if_pos (Or.inr hstar)]
    · unfold parseLevel parseLevelChars
      dsimp only
      refine List.mem_filterMap.mpr ⟨(x, y), ?_, ?_⟩
      · exact (mem_rowMajorCoords _ _ _ _).mpr ⟨hx, hy⟩
      · rw [if_pos (Or.inr (Or.inl hstar))]
    · rw [hcell, hstar]
      cases (decide (((x : Int), (y : Int)) ∈
        floodFill (rows.map String.toList) (gridWidth (rows.map String.toList))
          (rows.map String.toList).length)) <;> rfl

/-- Witness for C7 on a 2×3 strip whose single blank sits on the boundary. -/
theorem C7_flood_fill_void_witness :
    (1 < gridWidth (["##", "# ", "##"].map String.toList) ∧
      1 < (["##", "# ", "##"].map String.toList).length) ∧
    ((((parseLevel ["##", "# ", "##"]).parsedGrid.getD 1 []).getD 1 ' ' = 'x') ↔
      ExteriorBlank (["##", "# ", "##"].map String.toList)
        (gridWidth (["##", "# ", "##"].map String.toList))
        (["##", "# ", "##"].map String.toList).length ((1 : Int), (1 : Int))) :=
  ⟨⟨by decide, by decide⟩,
    (C7_flood_fill_void ["##", "# ", "##"] 1 1 (by decide) (by decide)).1⟩

/-! ### Lemmas about the random level generator (C8) -/

theorem list_set_getD_ne {α : Type} (l : List α) (i j : Nat) (a d : α)
    (h : i ≠ j) : (l.set i a).getD j d = l.getD j d := by
  induction l generalizing i j with
  | nil => rfl
  | cons b t ih =>
    cases i with
    | zero =>
      cases j with
      | zero => exact absurd rfl h
      | succ j2 => rfl
    | succ i2 =>
      cases j with
      | zero => rfl
      | succ j2 => exact ih i2 j2 (fun hc => h (by rw [hc]))

theorem list_set_getD_self {α : Type} (l : List α) (i : Nat) (a d : α)
    (h : i < l.length) : (l.set i a).getD i d = a := by
  induction l generalizing i with
  | nil => exact absurd h (by simp)
  | cons b t ih =>
    cases i with
    | zero => rfl
    | succ i2 => exact ih i2 (Nat.succ_lt_succ_iff.mp h)

theorem list_set_oob {α : Type} (l : List α) (i : Nat) (a : α)
    (h : l.length ≤ i) : l.set i a = l := by
  induction l generalizing i with
  | nil => rfl
  | cons b t ih =>
    cases i with
    | zero => exact absurd h (by simp)
    | succ i2 =>
      show b :: t.set i2 a = b :: t
      rw [ih i2 (Nat.succ_le_succ_iff.mp h)]

theorem draw_lt (r : Rng) (k : Nat) (hk : k ≠ 0) : (draw r k).1 < k := by
  show (if k = 0 then 0 else r.g r.idx % k) < k
  rw [if_neg hk]
  exact Nat.mod_lt _ (Nat.pos_of_ne_zero hk)

theorem cellI_setCell_ne (grid : List (List Char)) (x0 y0 : Int) (c : Char)
    (x y : Int) (h : x ≠ x0 ∨ y ≠ y0) :
    cellI (setCell grid x0 y0 c) x y = cellI grid x y := by
  unfold setCell
  split
  · rename_i h0
    unfold cellI
    split
    · rename_i hxy
      by_cases hyy : y.toNat = y0.toNat
      · have hx : x.toNat ≠ x0.toNat := by
          rcases h with h | h
          · omega
          · exact absurd (by omega : y = y0) h
        rw [hyy]
        by_cases hlen : y0.toNat < grid.length
        · rw [list_set_getD_self grid y0.toNat _ [] hlen,
            list_set_getD_ne _ _ _ _ _ (fun hc => hx hc.symm)]
        · rw [list_set_oob grid y0.toNat _ (Nat.le_of_not_lt hlen)]
      · rw [list_set_getD_ne grid y0.toNat y.toNat _ [] (fun hc => hyy hc.symm)]
    · rfl
  · rfl

theorem genConfig_facts (d : Nat) :
    8 ≤ (genConfig d).width ∧ 7 ≤ (genConfig d).height ∧
      1 ≤ (genConfig d).boxes ∧ (genConfig d).boxes ≤ 3 := by
  unfold genConfig
  repeat' split
  all_goals exact ⟨by decide, by decide, by decide, by decide⟩

theorem initialGrid_cellI (cfg : GenConfig) (x y : Int) (hx0 : 0 ≤ x)
    (hxw : x < (cfg.width : Int)) (hy0 : 0 ≤ y)
    (hyh : y < (cfg.height : Int)) :
    cellI (initialGrid cfg) x y =
      if x = 0 ∨ x = (cfg.width : Int) - 1 ∨ y = 0 ∨ y = (cfg.height : Int) - 1
      then '#' else ' ' := by
  unfold cellI initialGrid
  rw [if_pos ⟨hx0, hy0⟩, map_range_getD _ _ _ _ (by omega : y.toNat < cfg.height),
    map_range_getD _ _ _ _ (by omega : x.toNat < cfg.width)]
  by_cases hb : x = 0 ∨ x = (cfg.width : Int) - 1 ∨ y = 0 ∨ y = (cfg.height : Int) - 1
  · rw [if_pos hb, if_pos (by omega)]
  · rw [if_neg hb, if_neg (by omega)]

theorem scatterWalls_cellI (cfg : GenConfig) (hw : 8 ≤ cfg.width)
    (hh : 7 ≤ cfg.height) (x y : Int)
    (hxy : x < 2 ∨ y < 2 ∨ (cfg.width : Int) - 3 < x ∨ (cfg.height : Int) - 3 < y) :
    ∀ (n : Nat) (grid : List (List Char)) (rng : Rng),
      cellI (scatterWalls cfg n grid rng).1 x y = cellI grid x y := by
  intro n
  induction n with
  | zero => intro grid rng; rfl
  | succ m ih =>
    intro grid rng
    rcases hd1 : draw rng (cfg.width - 4) with ⟨rx, rng1⟩
    rcases hd2 : draw rng1 (cfg.height - 4) with ⟨ry, rng2⟩
    have hrx : rx < cfg.width - 4 := by
      have h := draw_lt rng (cfg.width - 4) (by omega)
      rw [hd1] at h
      exact h
    have hry : ry < cfg.height - 4 := by
      have h := draw_lt rng1 (cfg.height - 4) (by omega)
      rw [hd2] at h
      exact h
    unfold scatterWalls
    rw [hd1]
    dsimp only
    rw [hd2]
    dsimp only
    rw [ih]
    split
    · exact cellI_setCell_ne grid (2 + (rx : Int)) (2 + (ry : Int)) '#' x y (by omega)
    · rfl

theorem placeGoals_spec (cfg : GenConfig) (hw : 8 ≤ cfg.width)
    (hh : 7 ≤ cfg.height) (x y : Int)
    (hxy : x < 2 ∨ y < 2 ∨ (cfg.width : Int) - 3 < x ∨ (cfg.height : Int) - 3 < y) :
    ∀ (n : Nat) (grid : List (List Char)) (goals : List (Int × Int)) (rng : Rng),
      cellI (placeGoals cfg n grid goals rng).1 x y = cellI grid x y ∧
      (goals.length ≤ cfg.boxes →
        (placeGoals cfg n grid goals rng).2.1.length ≤ cfg.boxes) ∧
      (∀ gl ∈ (placeGoals cfg n grid goals rng).2.1, gl ∈ goals ∨ 2 ≤ gl.2) := by
  intro n
  induction n with
  | zero =>
    intro grid goals rng
    exact ⟨rfl, fun h => h, fun gl hgl => Or.inl hgl⟩
  | succ m ih =>
    intro grid goals rng
    rcases hd1 : draw rng (cfg.width - 4) with ⟨rx, rng1⟩
    rcases hd2 : draw rng1 (cfg.height - 4) with ⟨ry, rng2⟩
    have hrx : rx < cfg.width - 4 := by
      have h := draw_lt rng (cfg.width - 4) (by omega)
      rw [hd1] at h
      exact h
    have hry : ry < cfg.height - 4 := by
      have h := draw_lt rng1 (cfg.height - 4) (by omega)
      rw [hd2] at h
      exact h
    unfold placeGoals
    by_cases hlt : goals.length < cfg.boxes
    · rw [if_pos hlt, hd1]
      dsimp only
      rw [hd2]
      dsimp only
      split
      · split
        · obtain ⟨ih1, ih2, ih3⟩ := ih (setCell grid (2 + (rx : Int)) (2 + (ry : Int)) '.')
            (goals ++ [(2 + (rx : Int), 2 + (ry : Int))]) rng2
          refine ⟨?_, ?_, ?_⟩
          · rw [ih1]
            exact cellI_setCell_ne grid (2 + (rx : Int)) (2 + (ry : Int)) '.' x y (by omega)
          · intro _
            exact ih2 (by simp [List.length_append]; omega)
          · intro gl hgl
            rcases ih3 gl hgl with hmem | hy2
            · rcases List.mem_append.mp hmem with hin | hnew
              · exact Or.inl hin
              · obtain rfl := List.mem_singleton.mp hnew
                right
                show (2 : Int) ≤ 2 + (ry : Int)
                omega
            · exact Or.inr hy2
        · exact ih grid goals rng2
      · exact ih grid goals rng2
    · rw [if_neg hlt]
      exact ⟨rfl, fun h => h, fun gl hgl => Or.inl hgl⟩

theorem four_cells_free (boxes : List (Int × Int)) (h : boxes.length ≤ 3) :
    ∃ i : Int, 1 ≤ i ∧ i ≤ 4 ∧
      (boxes.any fun b => b.1 = i ∧ b.2 = 1) = false := by
  by_contra hall
  push_neg at hall
  have hmem : ∀ i : Int, 1 ≤ i → i ≤ 4 → ((i, (1 : Int)) ∈ boxes) := by
    intro i h1 h4
    have hne := hall i h1 h4
    have hany : (boxes.any fun b => decide (b.1 = i ∧ b.2 = 1)) = true := by
      cases hb : (boxes.any fun b => decide (b.1 = i ∧ b.2 = 1)) with
      | false => exact absurd hb hne
      | true => rfl
    obtain ⟨b, hbmem, hbp⟩ := List.any_eq_true.mp hany
    obtain ⟨he1, he2⟩ := of_decide_eq_true hbp
    have hbe : b = (i, 1) := Prod.ext he1 he2
    rw [← hbe]
    exact hbmem
  have h14 : ∀ p : Int × Int,
      p ∈ ([(1, 1), (2, 1), (3, 1), (4, 1)] : List (Int × Int)) → p ∈ boxes := by
    intro p hp
    simp only [List.mem_cons, List.not_mem_nil, or_false] at hp
    rcases hp with rfl | rfl | rfl | rfl
    · exact hmem 1 (by norm_num) (by norm_num)
    · exact hmem 2 (by norm_num) (by norm_num)
    · exact hmem 3 (by norm_num) (by norm_num)
    · exact hmem 4 (by norm_num) (by norm_num)
  have hsub : (([(1, 1), (2, 1), (3, 1), (4, 1)] : List (Int × Int)).toFinset) ⊆
      boxes.toFinset :=
    fun p hp => List.mem_toFinset.mpr (h14 p (List.mem_toFinset.mp hp))
  have hcard : (([(1, 1), (2, 1), (3, 1), (4, 1)] : List (Int × Int)).toFinset).card = 4 := by
    decide
  have h4 : 4 ≤ boxes.toFinset.card := hcard ▸ Finset.card_le_card hsub
  have hle : boxes.toFinset.card ≤ boxes.length := List.toFinset_card_le boxes
  omega

theorem interiorCoords_mem (cfg : GenConfig) (x y : Int) (hx1 : 1 ≤ x)
    (hx2 : x < (cfg.width : Int) - 1) (hy1 : 1 ≤ y)
    (hy2 : y < (cfg.height : Int) - 1) : (x, y) ∈ interiorCoords cfg := by
  unfold interiorCoords
  rw [List.mem_flatMap]
  refine ⟨(y - 1).toNat, List.mem_range.mpr (by omega), ?_⟩
  rw [List.mem_map]
  refine ⟨(x - 1).toNat, List.mem_range.mpr (by omega), ?_⟩
  have hxe : ((1 : Int) + ((x - 1).toNat : Int)) = x := by omega
  have hye : ((1 : Int) + ((y - 1).toNat : Int)) = y := by omega
  rw [hxe, hye]

theorem fixPlayer_off_goals (cfg : GenConfig) (grid : List (List Char))
    (goals boxes : List (Int × Int)) (player : Int × Int)
    (hfree : ∃ c, c ∈ interiorCoords cfg ∧
      decide (cellI grid c.1 c.2 ≠ '#' ∧
        ¬(goals.any fun gl => gl.1 = c.1 ∧ gl.2 = c.2) ∧
        ¬(boxes.any fun b => b.1 = c.1 ∧ b.2 = c.2)) = true) :
    (goals.any fun gl => gl.1 = (fixPlayer cfg grid goals boxes player).1 ∧
      gl.2 = (fixPlayer cfg grid goals boxes player).2) = false := by
  unfold fixPlayer
  by_cases hon : (goals.any fun gl => gl.1 = player.1 ∧ gl.2 = player.2) = true
  · rw [if_pos hon]
    split
    · rename_i c heq
      have hp := List.find?_some heq
      obtain ⟨_, hng, _⟩ := of_decide_eq_true hp
      exact Bool.eq_false_iff.mpr hng
    · rename_i heq
      exfalso
      obtain ⟨c, hcmem, hcp⟩ := hfree
      exact (List.find?_eq_none.mp heq c hcmem) hcp
  · rw [if_neg hon]
    exact Bool.eq_false_iff.mpr hon

theorem pullAttempt_boxes_length (cfg : GenConfig) (grid : List (List Char))
    (st : PullState) : (pullAttempt cfg grid st).boxes.length = st.boxes.length := by
  unfold pullAttempt
  rcases hd1 : draw st.rng st.boxes.length with ⟨bi, rng1⟩
  dsimp only
  rcases hd2 : draw rng1 4 with ⟨di, rng2⟩
  dsimp only
  repeat' split
  all_goals simp [List.length_set]

theorem pullLoop_boxes_length (cfg : GenConfig) (grid : List (List Char)) :
    ∀ (n : Nat) (st : PullState),
      (pullLoop cfg grid n st).boxes.length = st.boxes.length := by
  intro n
  induction n with
  | zero => intro st; rfl
  | succ m ih =>
    intro st
    unfold pullLoop
    split
    · rw [ih, pullAttempt_boxes_length]
    · rfl

theorem repairBox_length (cfg : GenConfig) (grid : List (List Char))
    (goals : List (Int × Int)) (player : Int × Int)
    (acc : List (Int × Int) × Rng × Bool) (bi : Nat) :
    (repairBox cfg grid goals player acc bi).1.length = acc.1.length := by
  unfold repairBox
  dsimp only
  split
  · rcases hr : randomRelocate cfg grid goals player 50 acc.1 bi acc.2.1 with ⟨o, rng3⟩
    rcases o with _ | cell
    · rcases hs : scanRelocate cfg grid goals acc.1 player bi with _ | cell2
      · rfl
      · simp [List.length_set]
    · simp [List.length_set]
  · rfl

theorem repairFold_length (cfg : GenConfig) (grid : List (List Char))
    (goals : List (Int × Int)) (player : Int × Int) :
    ∀ (l : List Nat) (acc : List (Int × Int) × Rng × Bool),
      (l.foldl (repairBox cfg grid goals player) acc).1.length = acc.1.length := by
  intro l
  induction l with
  | nil => intro acc; rfl
  | cons a t ih =>
    intro acc
    rw [List.foldl_cons, ih, repairBox_length]

theorem repairLoop_length (cfg : GenConfig) (grid : List (List Char))
    (goals : List (Int × Int)) (player : Int × Int) :
    ∀ (n : Nat) (st : List (Int × Int) × Rng),
      (repairLoop cfg grid goals player n st).1.length = st.1.length := by
  intro n
  induction n with
  | zero => intro st; rfl
  | succ m ih =>
    intro st
    unfold repairLoop
    rcases hit : repairIter cfg grid goals player st with ⟨boxes2, rng2, valid⟩
    dsimp only
    have hlen : boxes2.length = st.1.length := by
      have h := repairFold_length cfg grid goals player (List.range st.1.length)
        (st.1, st.2, true)
      unfold repairIter at hit
      rw [hit] at h
      exact h
    split
    · exact hlen
    · rw [ih]
      exact hlen

theorem repairBox_valid (cfg : GenConfig) (grid : List (List Char))
    (goals : List (Int × Int)) (player : Int × Int)
    (acc : List (Int × Int) × Rng × Bool) (bi : Nat)
    (h : (repairBox cfg grid goals player acc bi).2.2 = true) :
    repairBox cfg grid goals player acc bi = acc ∧
      (goals.any fun gl => gl.1 = (acc.1.getD bi (0, 0)).1 ∧
        gl.2 = (acc.1.getD bi (0, 0)).2) = false := by
  by_cases hc : (goals.any fun gl => gl.1 = (acc.1.getD bi (0, 0)).1 ∧
      gl.2 = (acc.1.getD bi (0, 0)).2) ∨
      1 < countWallNeighbors grid (acc.1.getD bi (0, 0)).1 (acc.1.getD bi (0, 0)).2
  · exfalso
    unfold repairBox at h
    dsimp only at h
    rw [if_pos hc] at h
    rcases hr : randomRelocate cfg grid goals player 50 acc.1 bi acc.2.1 with ⟨o, rng3⟩
    rw [hr] at h
    rcases o with _ | cell
    · rcases hs : scanRelocate cfg grid goals acc.1 player bi with _ | cell2
      · rw [hs] at h
        exact Bool.false_ne_true h
      · rw [hs] at h
        exact Bool.false_ne_true h
    · exact Bool.false_ne_true h
  · constructor
    · unfold repairBox
      dsimp only
      rw [if_neg hc]
    · push_neg at hc
      exact Bool.eq_false_iff.mpr hc.1

theorem repairFold_valid (cfg : GenConfig) (grid : List (List Char))
    (goals : List (Int × Int)) (player : Int × Int) :
    ∀ (l : List Nat) (acc : List (Int × Int) × Rng × Bool),
      (l.foldl (repairBox cfg grid goals player) acc).2.2 = true →
      l.foldl (repairBox cfg grid goals player) acc = acc ∧
        ∀ bi ∈ l, (goals.any fun gl => gl.1 = (acc.1.getD bi (0, 0)).1 ∧
          gl.2 = (acc.1.getD bi (0, 0)).2) = false := by
  intro l
  induction l with
  | nil =>
    intro acc _
    exact ⟨rfl, fun bi hbi => absurd hbi (List.not_mem_nil bi)⟩
  | cons a t ih =>
    intro acc h
    rw [List.foldl_cons] at h
    obtain ⟨heq, hall⟩ := ih (repairBox cfg grid goals player acc a) h
    have hstep : (repairBox cfg grid goals player acc a).2.2 = true := by
      rw [heq] at h
      exact h
    obtain ⟨hid, hoff⟩ := repairBox_valid cfg grid goals player acc a hstep
    refine ⟨?_, ?_⟩
    · rw [List.foldl_cons, heq, hid]
    · intro bi hbi
      rcases List.mem_cons.mp hbi with rfl | hbi2
      · exact hoff
      · have h2 := hall bi hbi2
        rw [hid] at h2
        exact h2

theorem repairIter_valid (cfg : GenConfig) (grid : List (List Char))
    (goals : List (Int × Int)) (player : Int × Int) (boxes : List (Int × Int))
    (rng : Rng) (boxes2 : List (Int × Int)) (rng2 : Rng)
    (h : repairIter cfg grid goals player (boxes, rng) = (boxes2, rng2, true)) :
    boxes2 = boxes ∧ ∀ b ∈ boxes2,
      (goals.any fun gl => gl.1 = b.1 ∧ gl.2 = b.2) = false := by
  unfold repairIter at h
  dsimp only at h
  have hv : ((List.range boxes.length).foldl (repairBox cfg grid goals player)
      (boxes, rng, true)).2.2 = true := by rw [h]
  obtain ⟨heq, hall⟩ := repairFold_valid cfg grid goals player
    (List.range boxes.length) (boxes, rng, true) hv
  rw [heq] at h
  have hbx : boxes = boxes2 := congrArg (fun t => t.1) h
  subst hbx
  refine ⟨rfl, ?_⟩
  intro b hb
  obtain ⟨j, hj, hjb⟩ := List.mem_iff_getElem.mp hb
  have h2 := hall j (List.mem_range.mpr hj)
  dsimp only at h2
  rw [List.getD_eq_getElem _ _ hj] at h2
  rw [hjb] at h2
  exact h2

/-! ### Evaluating the C8 counterexample stream -/

theorem cex_g_large (n : Nat) (h : 12 ≤ n) : cexRng.g n = 0 := by
  show cexDraws.getD n 0 = 0
  exact List.getD_eq_default _ _ (le_trans (by decide : cexDraws.length ≤ 12) h)

theorem cex_draw (k : Nat) (hk : k ≠ 0) (idx : Nat) (h : 12 ≤ idx) :
    draw ⟨cexRng.g, idx⟩ k = (0, ⟨cexRng.g, idx + 1⟩) := by
  show (if k = 0 then 0 else cexRng.g idx % k, (⟨cexRng.g, idx + 1⟩ : Rng)) = _
  rw [if_neg hk, cex_g_large idx h, Nat.zero_mod]

theorem cex_pullAttempt (idx : Nat) (h : 12 ≤ idx) :
    pullAttempt (genConfig 1) cexGrid
      ⟨[(2, 2)], (1, 1), ⟨cexRng.g, idx⟩, 0⟩ =
      ⟨[(2, 2)], (1, 1), ⟨cexRng.g, idx + 2⟩, 0⟩ := by
  conv_lhs => unfold pullAttempt
  dsimp only
  simp only [List.length_singleton, cex_draw 1 one_ne_zero idx h,
    cex_draw 4 (by decide) (idx + 1) (by omega)]
  rfl

theorem cex_pullLoop (n : Nat) : ∀ idx : Nat, 12 ≤ idx →
    pullLoop (genConfig 1) cexGrid n ⟨[(2, 2)], (1, 1), ⟨cexRng.g, idx⟩, 0⟩ =
      ⟨[(2, 2)], (1, 1), ⟨cexRng.g, idx + 2 * n⟩, 0⟩ := by
  induction n with
  | zero => intro idx h; rfl
  | succ m ih =>
    intro idx h
    have hstep : pullLoop (genConfig 1) cexGrid (m + 1)
        ⟨[(2, 2)], (1, 1), ⟨cexRng.g, idx⟩, 0⟩ =
        pullLoop (genConfig 1) cexGrid m
          (pullAttempt (genConfig 1) cexGrid ⟨[(2, 2)], (1, 1), ⟨cexRng.g, idx⟩, 0⟩) := rfl
    rw [hstep, cex_pullAttempt idx h, ih (idx + 2) (by omega)]
    have harith : idx + 2 + 2 * m = idx + 2 * (m + 1) := by omega
    rw [harith]

theorem cex_randomRelocate (k : Nat) : ∀ idx : Nat, 12 ≤ idx →
    randomRelocate (genConfig 1) cexGrid [(2, 2)] (1, 1) k [(2, 2)] 0 ⟨cexRng.g, idx⟩ =
      (none, ⟨cexRng.g, idx + 2 * k⟩) := by
  induction k with
  | zero => intro idx h; rfl
  | succ m ih =>
    intro idx h
    have hstep : randomRelocate (genConfig 1) cexGrid [(2, 2)] (1, 1) (m + 1)
        [(2, 2)] 0 ⟨cexRng.g, idx⟩ =
        randomRelocate (genConfig 1) cexGrid [(2, 2)] (1, 1) m
          [(2, 2)] 0 ⟨cexRng.g, idx + 2⟩ := by
      conv_lhs => unfold randomRelocate
      rw [cex_draw ((genConfig 1).width - 2) (by decide) idx h]
      dsimp only
      rw [cex_draw ((genConfig 1).height - 2) (by decide) (idx + 1) (by omega)]
      rfl
    rw [hstep, ih (idx + 2) (by omega)]
    have harith : idx + 2 + 2 * m = idx + 2 * (m + 1) := by omega
    rw [harith]

theorem cex_repairIter (idx : Nat) (h : 12 ≤ idx) :
    repairIter (genConfig 1) cexGrid [(2, 2)] (1, 1) ([(2, 2)], ⟨cexRng.g, idx⟩) =
      ([(2, 2)], ⟨cexRng.g, idx + 100⟩, false) := by
  unfold repairIter
  dsimp only
  simp only [List.length_singleton]
  rw [show (List.range 1 : List Nat) = [0] from rfl]
  simp only [List.foldl_cons, List.foldl_nil]
  unfold repairBox
  dsimp only
  rw [cex_randomRelocate 50 idx h]
  rfl

theorem cex_repairLoop (n : Nat) : ∀ idx : Nat, 12 ≤ idx →
    repairLoop (genConfig 1) cexGrid [(2, 2)] (1, 1) n ([(2, 2)], ⟨cexRng.g, idx⟩) =
      ([(2, 2)], ⟨cexRng.g, idx + 100 * n⟩) := by
  induction n with
  | zero => intro idx h; rfl
  | succ m ih =>
    intro idx h
    have hstep : repairLoop (genConfig 1) cexGrid [(2, 2)] (1, 1) (m + 1)
        ([(2, 2)], ⟨cexRng.g, idx⟩) =
        repairLoop (genConfig 1) cexGrid [(2, 2)] (1, 1) m
          ([(2, 2)], ⟨cexRng.g, idx + 100⟩) := by
      conv_lhs => unfold repairLoop
      rw [cex_repairIter idx h]
      rfl
    rw [hstep, ih (idx + 100) (by omega)]
    have harith : idx + 100 + 100 * m = idx + 100 * (m + 1) := by omega
    rw [harith]

/-- C8 is refuted on the explicit draw stream `cexRng` at difficulty 1: walls
block every reverse pull and every relocation, the repair loop runs through
its full 500-iteration cap without moving the single box, and the returned
level starts with its box `(2,2)` exactly on its goal `(2,2)`. -/
theorem C8_counterexample :
    ((generateRandomLevel 1 cexRng 1).map fun pr =>
      (pr.1.initialBoxes, pr.1.goals, pr.1.initialPlayer,
        pr.1.goals.any fun gl => boxAt pr.1.initialBoxes gl.x gl.y)) =
      some ([⟨2, 2⟩], [⟨2, 2⟩], ⟨1, 1⟩, true) := by
  have hgen : generateRandomLevel 1 cexRng 1 =
      some ({ parsedGrid := cexGrid, initialPlayer := ⟨1, 1⟩,
              initialBoxes := [⟨2, 2⟩], goals := [⟨2, 2⟩] },
            ⟨cexRng.g, 12 + 2 * ((genConfig 1).moves * 5) + 100 * 500⟩) := by
    unfold generateRandomLevel
    dsimp only
    rw [show scatterWalls (genConfig 1)
        ((genConfig 1).width * (genConfig 1).height / 10)
        (initialGrid (genConfig 1)) cexRng = (cexGridPre, ⟨cexRng.g, 10⟩) from rfl]
    dsimp only
    rw [show placeGoals (genConfig 1) 100 cexGridPre [] ⟨cexRng.g, 10⟩ =
        (cexGrid, [((2 : Int), (2 : Int))], ⟨cexRng.g, 12⟩) from rfl]
    dsimp only
    rw [show findRow1Player (genConfig 1) cexGrid [((2 : Int), (2 : Int))] =
        ((1 : Int), (1 : Int)) from rfl]
    rw [cex_pullLoop ((genConfig 1).moves * 5) 12 (by omega)]
    dsimp only
    rw [cex_repairLoop 500 (12 + 2 * ((genConfig 1).moves * 5)) (Nat.le_add_right 12 _)]
    rfl
  rw [hgen]
  rfl

theorem any_map_comp {α β : Type} (l : List α) (f : α → β) (p : β → Bool) :
    (l.map f).any p = l.any fun a => p (f a) := by
  induction l with
  | nil => rfl
  | cons b t ih => simp [List.any_cons, ih]

/-- C8 (amended): every level `generateRandomLevel` returns has exactly the
tier's configured box count, a completely walled outer ring, and a player
that does not start on a goal; and any repair iteration that reports success
certifies that no box rests on a goal — so the "no box starts on a goal"
clause holds exactly when the repair loop converges before its
500-iteration cap, while past the cap an imperfect level may keep a box on
a goal. -/
theorem C8_generated_level (fuel : Nat) (rng : Rng) (difficulty : Nat)
    (pr : ParsedLevel × Rng)
    (hgen : generateRandomLevel fuel rng difficulty = some pr) :
    pr.1.initialBoxes.length = (genConfig difficulty).boxes ∧
    (∀ x y : Int, 0 ≤ x → x < ((genConfig difficulty).width : Int) →
      0 ≤ y → y < ((genConfig difficulty).height : Int) →
      (x = 0 ∨ x = ((genConfig difficulty).width : Int) - 1 ∨ y = 0 ∨
        y = ((genConfig difficulty).height : Int) - 1) →
      cellI pr.1.parsedGrid x y = '#') ∧
    (pr.1.goals.any fun gl => gl.x = pr.1.initialPlayer.x ∧
      gl.y = pr.1.initialPlayer.y) = false ∧
    (∀ (g0 : List (List Char)) (gs0 bx0 : List (Int × Int))
        (pl0 : Int × Int) (r0 : Rng) (bx2 : List (Int × Int)) (r2 : Rng),
      repairIter (genConfig difficulty) g0 gs0 pl0 (bx0, r0) = (bx2, r2, true) →
      bx2 = bx0 ∧ ∀ b ∈ bx2,
        (gs0.any fun gl => gl.1 = b.1 ∧ gl.2 = b.2) = false) := by
  obtain ⟨hw8, hh7, hb1, hb3⟩ := genConfig_facts difficulty
  induction fuel generalizing rng pr with
  | zero => exact absurd hgen (by simp [generateRandomLevel])
  | succ m ih =>
    unfold generateRandomLevel at hgen
    dsimp only at hgen
    rcases hsc : scatterWalls (genConfig difficulty)
        ((genConfig difficulty).width * (genConfig difficulty).height / 10)
        (initialGrid (genConfig difficulty)) rng with ⟨grid1, rng1⟩
    rw [hsc] at hgen
    dsimp only at hgen
    rcases hpg : placeGoals (genConfig difficulty) 100 grid1 [] rng1 with
      ⟨grid2, goals2, rng2⟩
    rw [hpg] at hgen
    dsimp only at hgen
    by_cases hlt : goals2.length < (genConfig difficulty).boxes
    · rw [if_pos hlt] at hgen
      exact ih rng2 pr hgen
    · rw [if_neg hlt] at hgen
      rcases hpl : pullLoop (genConfig difficulty) grid2
          ((genConfig difficulty).moves * 5)
          ⟨goals2, findRow1Player (genConfig difficulty) grid2 goals2, rng2, 0⟩ with
        ⟨pboxes, pplayer, prng, psucc⟩
      rw [hpl] at hgen
      dsimp only at hgen
      rcases hrl : repairLoop (genConfig difficulty) grid2 goals2 pplayer 500
          (pboxes, prng) with ⟨fboxes, frng⟩
      rw [hrl] at hgen
      dsimp only at hgen
      have hpr := Option.some.inj hgen
      subst hpr
      have hgle : goals2.length ≤ (genConfig difficulty).boxes := by
        have h := (placeGoals_spec (genConfig difficulty) hw8 hh7 0 0
          (by norm_num) 100 grid1 [] rng1).2.1 (by simp)
        rw [hpg] at h
        exact h
      have hglen : goals2.length = (genConfig difficulty).boxes :=
        le_antisymm hgle (Nat.le_of_not_lt hlt)
      have hplen : pboxes.length = goals2.length := by
        have h := pullLoop_boxes_length (genConfig difficulty) grid2
          ((genConfig difficulty).moves * 5)
          ⟨goals2, findRow1Player (genConfig difficulty) grid2 goals2, rng2, 0⟩
        rw [hpl] at h
        exact h
      have hflen : fboxes.length = pboxes.length := by
        have h := repairLoop_length (genConfig difficulty) grid2 goals2 pplayer 500
          (pboxes, prng)
        rw [hrl] at h
        exact h
      have hpres : ∀ x y : Int,
          (x < 2 ∨ y < 2 ∨ ((genConfig difficulty).width : Int) - 3 < x ∨
            ((genConfig difficulty).height : Int) - 3 < y) →
          cellI grid2 x y = cellI (initialGrid (genConfig difficulty)) x y := by
        intro x y hxy
        have h1 := (placeGoals_spec (genConfig difficulty) hw8 hh7 x y hxy
          100 grid1 [] rng1).1
        rw [hpg] at h1
        have h2 := scatterWalls_cellI (genConfig difficulty) hw8 hh7 x y hxy
          ((genConfig difficulty).width * (genConfig difficulty).height / 10)
          (initialGrid (genConfig difficulty)) rng
        rw [hsc] at h2
        exact h1.trans h2
      have hgmem : ∀ gl ∈ goals2, 2 ≤ gl.2 := by
        intro gl hgl
        have h := (placeGoals_spec (genConfig difficulty) hw8 hh7 0 0
          (by norm_num) 100 grid1 [] rng1).2.2
        rw [hpg] at h
        rcases h gl hgl with hin | h2
        · exact absurd hin (List.not_mem_nil gl)
        · exact h2
      refine ⟨?_, ?_, ?_, ?_⟩
      · dsimp only
        rw [List.length_map, hflen, hplen, hglen]
      · intro x y hx0 hxw hy0 hyh hb
        dsimp only
        rw [hpres x y (by omega),
          initialGrid_cellI (genConfig difficulty) x y hx0 hxw hy0 hyh, if_pos hb]
      · dsimp only
        rw [any_map_comp]
        have hlen3 : fboxes.length ≤ 3 := by
          rw [hflen, hplen, hglen]
          exact hb3
        obtain ⟨i, hi1, hi4, hifree⟩ := four_cells_free fboxes hlen3
        have hcell : cellI grid2 i 1 = ' ' := by
          rw [hpres i 1 (by omega),
            initialGrid_cellI (genConfig difficulty) i 1 (by omega) (by omega)
              (by norm_num) (by omega),
            if_neg (by omega)]
        have hgfree : (goals2.any fun gl => gl.1 = i ∧ gl.2 = 1) = false := by
          rw [List.any_eq_false]
          intro gl hgl
          have h2 := hgmem gl hgl
          simp only [decide_eq_true_eq]
          rintro ⟨h1x, h2y⟩
          omega
        have hfree : ∃ c, c ∈ interiorCoords (genConfig difficulty) ∧
            decide (cellI grid2 c.1 c.2 ≠ '#' ∧
              ¬(goals2.any fun gl => gl.1 = c.1 ∧ gl.2 = c.2) ∧
              ¬(fboxes.any fun b => b.1 = c.1 ∧ b.2 = c.2)) = true := by
          refine ⟨(i, 1), interiorCoords_mem (genConfig difficulty) i 1 hi1
            (by omega) (by norm_num) (by omega), ?_⟩
          refine decide_eq_true ?_
          refine ⟨?_, ?_, ?_⟩
          · show cellI grid2 i 1 ≠ '#'
            rw [hcell]
            decide
          · intro hc
            dsimp only at hc
            rw [hgfree] at hc
            exact Bool.false_ne_true hc
          · intro hc
            dsimp only at hc
            rw [hifree] at hc
            exact Bool.false_ne_true hc
        exact fixPlayer_off_goals (genConfig difficulty) grid2 goals2 fboxes
          pplayer hfree
      · intro g0 gs0 bx0 pl0 r0 bx2 r2 hit
        exact repairIter_valid (genConfig difficulty) g0 gs0 pl0 bx0 r0 bx2 r2 hit

set_option maxRecDepth 4000 in
/-- Witness for the amended C8: on the stream `witRng` (difficulty 1) the
generation converges, returning one box at `(4,4)`, the goal at `(3,2)` and
the player at `(1,1)`; the box count matches the tier. -/
theorem C8_generated_level_witness :
    generateRandomLevel 1 witRng 1 =
      some ({ parsedGrid := witGrid, initialPlayer := ⟨1, 1⟩,
              initialBoxes := [⟨4, 4⟩], goals := [⟨3, 2⟩] }, ⟨witRng.g, 314⟩) ∧
    (({ parsedGrid := witGrid, initialPlayer := ⟨1, 1⟩,
        initialBoxes := [⟨4, 4⟩], goals := [⟨3, 2⟩] },
      (⟨witRng.g, 314⟩ : Rng)) : ParsedLevel × Rng).1.initialBoxes.length =
      (genConfig 1).boxes :=
  ⟨rfl,
    (C8_generated_level 1 witRng 1
      ({ parsedGrid := witGrid, initialPlayer := ⟨1, 1⟩,
         initialBoxes := [⟨4, 4⟩], goals := [⟨3, 2⟩] }, ⟨witRng.g, 314⟩) rfl).1⟩

end Sokoban
